import Mathlib

/-!
Verification of the core of the Conduit VS Code extension: static route
detection, collection inference, Mongo sampling, ObjectId resolution,
hybrid payload generation and controller-context extraction, shallowly
embedded from the TypeScript sources.  File-system, database-driver and
LLM results are environment parameters; all JS numbers are modelled as
rationals and JS strings as Lean strings.
-/

namespace Conduit

/-! ## JS-style string helpers

Re-implementations of the JavaScript string operations the sources use,
written over `String.data` so that they are fully computable and easy to
reason about. -/

def jsUpper (s : String) : String := ⟨s.data.map Char.toUpper⟩

def jsLower (s : String) : String := ⟨s.data.map Char.toLower⟩

/-- JS `s.includes(sub)`. -/
def strIncludes (s sub : String) : Bool := decide (sub.data <:+: s.data)

/-- JS `s.startsWith(p)`. -/
def strStartsWith (s p : String) : Bool := decide (p.data <+: s.data)

/-- JS `s.endsWith(p)`. -/
def strEndsWith (s p : String) : Bool := decide (p.data <:+ s.data)

/-- JS `s.slice(0, -n)` on a string that has at least `n` characters. -/
def strDropRight (s : String) (n : Nat) : String := ⟨s.data.take (s.data.length - n)⟩

/-- JS `s.slice(0, -1)`. -/
def strDropLast (s : String) : String := ⟨s.data.dropLast⟩

def strEndsWithSlash (s : String) : Bool := s.data.getLast? == some '/'

def strStartsWithSlash (s : String) : Bool := s.data.head? == some '/'

/-- Splitter for JS `String.prototype.split` on a character class. -/
def splitCharList (p : Char → Bool) : List Char → List (List Char)
  | [] => [[]]
  | c :: rest =>
      let r := splitCharList p rest
      if p c then [] :: r
      else
        match r with
        | g :: gs => (c :: g) :: gs
        | [] => [[c]]

def jsSplit (s : String) (p : Char → Bool) : List String :=
  (splitCharList p s.data).map (fun l => ⟨l⟩)

/-- `s` begins with exactly one '/' character. -/
def oneSlashL : List Char → Bool
  | [] => false
  | c :: rest => c == '/' && !(rest.head? == some '/')

def oneSlash (s : String) : Bool := oneSlashL s.data

def isHexDigit (c : Char) : Bool := c.isDigit || ('a' ≤ c && c ≤ 'f') || ('A' ≤ c && c ≤ 'F')

/-- JS `value.length === 24 && /^[0-9a-fA-F]\x7b24\x7d$/.test(value)`. -/
def isHex24 (s : String) : Bool := s.data.length == 24 && s.data.all isHexDigit

/-- Insertion into a JS `Set` (insertion order preserved, duplicates dropped). -/
def insertUniq (l : List String) (x : String) : List String :=
  if x ∈ l then l else l ++ [x]

namespace RouteDetection

/-! ## RouteDetector (src/conduit/src/routeDetection.ts)

The Babel AST is modelled as the list of nodes a traversal visits, in
traversal order, carrying exactly the shape information the detector
inspects.  `fs.existsSync`-based relative-import resolution is an
environment oracle (`resolveRel`); the `!importPath.startsWith(".")`
guard of `resolveControllerPath` is kept in the embedding. -/

structure DetectedRoute where
  method : String
  path : String
  filePath : String
  line : Nat
  middlewares : List String
  handler : String
  controllerFilePath : Option String
  controllerFunction : Option String
deriving DecidableEq

/-- A positional argument of a call expression, as far as the detector
looks at it: `member o p` has `some` components exactly when object /
property are `Identifier`s. -/
inductive AstArg
  | ident (name : String)
  | strLit (value : String)
  | member (objName : Option String) (propName : Option String)
  | otherArg
deriving DecidableEq

inductive CalleeShape
  | member (objName : Option String) (propName : Option String)
  | nonMember
deriving DecidableEq

inductive ImportSpecKind
  | defaultSpec
  | namespaceSpec
  | namedSpec
  | otherSpec
deriving DecidableEq

/-- The `init` of a `VariableDeclarator`, as inspected by `detectRequires`. -/
inductive RInit
  | callInit (calleeIdent : Option String) (args : List AstArg)
  | otherInit
  | noInit
deriving DecidableEq

inductive RNode
  | importDecl (source : Option String) (specs : List (ImportSpecKind × String))
  | varDecl (idName : Option String) (ini : RInit)
  | call (callee : CalleeShape) (args : List AstArg) (line : Nat)
  | otherNode
deriving DecidableEq

structure DetectorState where
  routes : List DetectedRoute
  routerPrefixes : List (String × String)
  controllerImports : List (String × String)
  functionImports : List (String × String)
deriving DecidableEq

/-- Environment: result of the `path.resolve`/`fs.existsSync` search for a
relative import, given the import path and the current file path. -/
structure RDEnv where
  resolveRel : String → String → Option String

def resolveControllerPath (env : RDEnv) (importPath currentFilePath : String) : Option String :=
  if strStartsWith importPath "." then env.resolveRel importPath currentFilePath else none

def detectImports (env : RDEnv) (filePath : String) (s : DetectorState)
    (source : Option String) (specs : List (ImportSpecKind × String)) : DetectorState :=
  match source with
  | none => s
  | some importPath =>
      match resolveControllerPath env importPath filePath with
      | none => s
      | some resolvedPath =>
          specs.foldl (fun s spec =>
            match spec.1 with
            | .defaultSpec =>
                { s with controllerImports := (spec.2, resolvedPath) :: s.controllerImports }
            | .namespaceSpec =>
                { s with controllerImports := (spec.2, resolvedPath) :: s.controllerImports }
            | .namedSpec =>
                { s with functionImports := (spec.2, resolvedPath) :: s.functionImports }
            | .otherSpec => s) s

def detectRequires (env : RDEnv) (filePath : String) (s : DetectorState)
    (idName : Option String) (ini : RInit) : DetectorState :=
  match idName, ini with
  | some nm, .callInit (some "require") (AstArg.strLit p :: _) =>
      match resolveControllerPath env p filePath with
      | some rp => { s with controllerImports := (nm, rp) :: s.controllerImports }
      | none => s
  | _, _ => s

def pass1 (env : RDEnv) (filePath : String) (s : DetectorState) (n : RNode) : DetectorState :=
  match n with
  | .importDecl src specs => detectImports env filePath s src specs
  | .varDecl idName ini => detectRequires env filePath s idName ini
  | _ => s

/-- `app.use('/prefix', router)` detection (second pass). -/
def detectRouterPrefix (s : DetectorState) (n : RNode) : DetectorState :=
  match n with
  | .call (.member _ (some "use")) (AstArg.strLit v :: AstArg.ident nm :: _) _ =>
      { s with routerPrefixes := (nm, v) :: s.routerPrefixes }
  | _ => s

def combinePaths (pre p : String) : String :=
  let cleanPrefix := if strEndsWithSlash pre then strDropLast pre else pre
  let cleanPath := if strStartsWithSlash p then p else "/" ++ p
  cleanPrefix ++ cleanPath

def httpMethodsLow : List String :=
  ["get", "post", "put", "delete", "patch", "head", "options"]

def httpMethodsUp : List String :=
  ["GET", "POST", "PUT", "DELETE", "PATCH", "HEAD", "OPTIONS"]

/-- The `for (let i = 1; ...)` loop of `detectRoute` over the arguments
after the path: returns (middlewares, handler, controllerFilePath,
controllerFunction); the last argument determines the handler. -/
def argsLoop (functionImports controllerImports : List (String × String)) :
    List AstArg → List String × String × Option String × Option String
  | [] => ([], "anonymous", none, none)
  | [a] =>
      match a with
      | .ident nm =>
          match functionImports.lookup nm with
          | some rp => ([], nm, some rp, some nm)
          | none => ([], nm, none, none)
      | .member (some o) (some pr) =>
          match controllerImports.lookup o with
          | some rp => ([], o ++ "." ++ pr, some rp, some pr)
          | none => ([], o ++ "." ++ pr, none, none)
      | _ => ([], "anonymous", none, none)
  | a :: b :: rest =>
      let r := argsLoop functionImports controllerImports (b :: rest)
      match a with
      | .ident nm => (nm :: r.1, r.2)
      | _ => r

/-- Third pass: route registration calls `<expr>.<verb>(<path>, ...)`. -/
def detectRoute (filePath : String) (s : DetectorState) (n : RNode) : DetectorState :=
  match n with
  | .call (.member objName (some propName)) args line =>
      let method := jsLower propName
      if httpMethodsLow.contains method then
        match args with
        | .strLit routePath :: _ =>
            let fullPath :=
              match objName with
              | some routerName =>
                  match s.routerPrefixes.lookup routerName with
                  | some pre => combinePaths pre routePath
                  | none => routePath
              | none => routePath
            let r := argsLoop s.functionImports s.controllerImports (args.drop 1)
            { s with routes := s.routes ++
                [⟨jsUpper method, fullPath, filePath, line, r.1, r.2.1, r.2.2.1, r.2.2.2⟩] }
        | _ => s
      else s
  | _ => s

/-- One source file: its path and its parse outcome (`none` = parse or
read error, caught and skipped). -/
structure RFile where
  path : String
  parsed : Option (List RNode)

/-- `parseFileForRoutes`: on parse success the two import maps are
cleared, then the three passes run in order; a parse failure leaves the
state untouched (the `catch` fires before the maps are cleared). -/
def parseFileForRoutes (env : RDEnv) (s : DetectorState) (f : RFile) : DetectorState :=
  match f.parsed with
  | none => s
  | some nodes =>
      let s1 := { s with controllerImports := [], functionImports := [] }
      let s2 := nodes.foldl (pass1 env f.path) s1
      let s3 := nodes.foldl detectRouterPrefix s2
      nodes.foldl (detectRoute f.path) s3

def emptyState : DetectorState := ⟨[], [], [], []⟩

def detectRoutes (env : RDEnv) (files : List RFile) : List DetectedRoute :=
  (files.foldl (parseFileForRoutes env) emptyState).routes

/-- `detectRoutesInFile`: the four state components are snapshotted, the
state is cleared, the single file is parsed, the fresh routes are
returned, and the `finally` block restores the snapshots — so the
net effect on the detector state is the identity. -/
def detectRoutesInFile (env : RDEnv) (s : DetectorState) (f : RFile) :
    List DetectedRoute × DetectorState :=
  ((parseFileForRoutes env emptyState f).routes, s)

/-- A scan step: either the full-scan loop processing one file, or an
interleaved `detectRoutesInFile` probe. -/
inductive ScanOp
  | fileOp (f : RFile)
  | probeOp (f : RFile)

def isFileOp : ScanOp → Bool
  | .fileOp _ => true
  | .probeOp _ => false

def runOps (env : RDEnv) : DetectorState → List ScanOp → DetectorState
  | s, [] => s
  | s, .fileOp f :: rest => runOps env (parseFileForRoutes env s f) rest
  | s, .probeOp f :: rest => runOps env (detectRoutesInFile env s f).2 rest

/-- String literals appearing as call arguments in a node (the only
literals that can become route paths or router prefixes). -/
def nodeStrLits : RNode → List String
  | .call _ args _ => args.filterMap (fun a =>
      match a with
      | .strLit v => some v
      | _ => none)
  | _ => []

def fileLitsOneSlash (f : RFile) : Prop :=
  ∀ nodes, f.parsed = some nodes → ∀ n ∈ nodes, ∀ v ∈ nodeStrLits n, oneSlash v = true

def prefixesOneSlash (s : DetectorState) : Prop :=
  ∀ p ∈ s.routerPrefixes, oneSlash p.2 = true

def routesMethodOk (s : DetectorState) : Prop :=
  ∀ r ∈ s.routes, r.method ∈ httpMethodsUp

def routesSlashOk (s : DetectorState) : Prop :=
  ∀ r ∈ s.routes, oneSlash r.path = true

end RouteDetection

namespace CollectionInferencer

/-! ## CollectionInferencer (collectionInferencer.ts, src/unnamed/part_003) -/

structure CollectionInference where
  collectionName : String
  confidence : ℚ
  reasoning : String
  alternativeNames : List String
deriving DecidableEq

/-- The subset of `DetectedRoute` the inferencer reads. -/
structure Route where
  method : String
  path : String
  filePath : String
deriving DecidableEq

def SPECIAL_CASES : List (String × List String) :=
  [("auth", ["users", "accounts"]),
   ("login", ["users", "accounts"]),
   ("register", ["users", "accounts"]),
   ("signup", ["users", "accounts"]),
   ("signin", ["users", "accounts"]),
   ("logout", ["users", "sessions"]),
   ("profile", ["users", "profiles"]),
   ("me", ["users", "profiles"]),
   ("account", ["users", "accounts"]),
   ("session", ["sessions", "users"])]

def IGNORED_SEGMENTS : List String :=
  ["api", "v1", "v2", "v3", "admin", "public", "private", "endpoints"]

def parseRoutePath (path : String) : List String :=
  ((jsSplit path (fun c => c == '/')).filter (fun segment =>
      !(segment == "") && !(strStartsWith segment ":") && !(strStartsWith segment "*")
        && !(IGNORED_SEGMENTS.contains (jsLower segment)))).map jsLower

def pluralizeToSingular (word : String) : String :=
  if strEndsWith word "ies" then strDropRight word 3 ++ "y"
  else if strEndsWith word "ves" then strDropRight word 3 ++ "f"
  else if strEndsWith word "s" then strDropRight word 1
  else word

def pluralizeToPlural (word : String) : String :=
  if strEndsWith word "y" then strDropRight word 1 ++ "ies"
  else if strEndsWith word "f" then strDropRight word 1 ++ "ves"
  else word ++ "s"

def isPlural (word : String) : Bool :=
  strEndsWith word "s" || strEndsWith word "ies" || strEndsWith word "ves"

def commonResources : List String :=
  ["users", "user", "products", "product", "orders", "order", "items", "item",
   "posts", "post", "comments", "comment", "categories", "category", "tags", "tag",
   "files", "file"]

def calculateSegmentConfidence (segment : String) (method : String) : ℚ :=
  let confidence : ℚ := 0.5
  let confidence := if commonResources.contains segment then confidence + 0.3 else confidence
  let confidence := if isPlural segment then confidence + 0.2 else confidence
  let confidence :=
    if (["GET", "POST", "PUT", "PATCH", "DELETE"].contains method) then confidence + 0.1
    else confidence
  min confidence 1

def inferFromPathSegments (segments : List String) (route : Route) : CollectionInference :=
  match segments with
  | [] =>
      ⟨"documents", 0.1, "No meaningful segments found, using default", ["items", "data"]⟩
  | resourceSegment :: _ =>
      let collectionName := pluralizeToSingular resourceSegment
      let confidence := calculateSegmentConfidence resourceSegment route.method
      ⟨collectionName, confidence, "Inferred from path segment: " ++ resourceSegment,
        ([resourceSegment, pluralizeToPlural collectionName].filter (fun nm => !(nm == collectionName)))⟩

def isAuthRoute (route : Route) : Bool :=
  let pathLower := jsLower route.path
  (["login", "logout", "auth", "signin", "signup", "register", "token", "session"].any
      (fun keyword => strIncludes pathLower keyword))
    || (route.method == "POST" && strIncludes pathLower "password")

def inferFromSpecialCases (segments : List String) (route : Route) : CollectionInference :=
  match segments.findSome? (fun segment =>
      (SPECIAL_CASES.lookup segment).map (fun cols => (segment, cols))) with
  | some (segment, potentialCollections) =>
      ⟨potentialCollections.headD "users", 0.8,
        "Special case mapping for " ++ segment, potentialCollections.tail⟩
  | none =>
      if isAuthRoute route then
        ⟨"users", 0.7, "Appears to be authentication-related route", ["accounts", "profiles"]⟩
      else
        ⟨"unknown", 0, "No special cases matched", []⟩

def inferFromRouteMethod (segments : List String) (route : Route) : CollectionInference :=
  match segments with
  | [] => ⟨"unknown", 0, "No segments to analyze", []⟩
  | resourceSegment :: _ =>
      let confidence : ℚ := 0.3
      let hasIdParam := strIncludes route.path ":id" || strIncludes route.path "/:"
      let confidence :=
        if hasIdParam && (["GET", "PUT", "PATCH", "DELETE"].contains route.method) then
          confidence + 0.2
        else confidence
      let confidence :=
        if (["POST"].contains route.method) && !hasIdParam then confidence + 0.2
        else confidence
      let collectionName := pluralizeToSingular resourceSegment
      ⟨collectionName, confidence,
        "REST pattern: " ++ route.method ++ " suggests collection", [resourceSegment]⟩

def genericNames : List String :=
  ["index", "routes", "route", "router", "app", "server", "api"]

def inferFromFileName (filePath : String) : CollectionInference :=
  let fileName :=
    let base := ((jsSplit filePath (fun c => c == '/' || c == '\\')).getLastD "")
    if strEndsWith base ".js" then strDropRight base 3
    else if strEndsWith base ".ts" then strDropRight base 3
    else base
  let cleanFileName := jsLower fileName
  if genericNames.contains cleanFileName then
    ⟨"unknown", 0, "Generic file name provides no collection hints", []⟩
  else
    let pathParts := jsSplit (jsLower filePath) (fun c => c == '/' || c == '\\')
    let potentialCollections := pathParts.filter (fun part =>
      !(part.contains '.') && !(IGNORED_SEGMENTS.contains part) && decide (part.length > 2))
    match potentialCollections.getLast? with
    | some lastPart =>
        ⟨pluralizeToSingular lastPart, 0.4, "Inferred from file path: " ++ fileName,
          potentialCollections.dropLast⟩
    | none => ⟨"unknown", 0, "File path provides no collection hints", []⟩

/-- `inferences.reduce((best, current) => current.confidence > best.confidence ? current : best)`. -/
def bestOf (head : CollectionInference) (tail : List CollectionInference) : CollectionInference :=
  tail.foldl (fun best current => if best.confidence < current.confidence then current else best) head

/-- One step of the alternative-name `Set` accumulation: add the
inference's own name (when it differs from the primary) and then all its
alternative names. -/
def collectStep (best : CollectionInference) (acc : List String)
    (inference : CollectionInference) : List String :=
  let acc :=
    if !(inference.collectionName == best.collectionName) then
      insertUniq acc inference.collectionName
    else acc
  inference.alternativeNames.foldl insertUniq acc

def collectAlternatives (best : CollectionInference) (inferences : List CollectionInference) :
    List String :=
  inferences.foldl (collectStep best) []

def inferCollectionName (route : Route) : CollectionInference :=
  let pathSegments := parseRoutePath route.path
  let i1 := inferFromPathSegments pathSegments route
  let i2 := inferFromSpecialCases pathSegments route
  let i3 := inferFromRouteMethod pathSegments route
  let i4 := inferFromFileName route.filePath
  let inferences := [i1, i2, i3, i4]
  let bestInference := bestOf i1 [i2, i3, i4]
  { bestInference with alternativeNames := (collectAlternatives bestInference inferences).take 5 }

end CollectionInferencer

/-! ## A model of JS runtime values (documents, samples, field values) -/

inductive JsValue where
  | vNull
  | vUndef
  | vBool (b : Bool)
  | vNum (q : ℚ)
  | vStr (s : String)
  | vArr (elems : List JsValue)
  | vObj (fields : List (String × JsValue))
  | vDate (iso : String)
  | vOid (hex : String)

mutual

def beqJsValue : JsValue → JsValue → Bool
  | .vNull, .vNull => true
  | .vUndef, .vUndef => true
  | .vBool a, .vBool b => a == b
  | .vNum a, .vNum b => a == b
  | .vStr a, .vStr b => a == b
  | .vArr a, .vArr b => beqJsList a b
  | .vObj a, .vObj b => beqJsObj a b
  | .vDate a, .vDate b => a == b
  | .vOid a, .vOid b => a == b
  | _, _ => false

def beqJsList : List JsValue → List JsValue → Bool
  | [], [] => true
  | x :: xs, y :: ys => beqJsValue x y && beqJsList xs ys
  | _, _ => false

def beqJsObj : List (String × JsValue) → List (String × JsValue) → Bool
  | [], [] => true
  | (k1, v1) :: r1, (k2, v2) :: r2 => k1 == k2 && beqJsValue v1 v2 && beqJsObj r1 r2
  | _, _ => false

end

instance : BEq JsValue := ⟨beqJsValue⟩

/-- Stable insertion used to model `Array.prototype.sort` (which is
stable) by a structurally recursive stable sort. -/
def stableInsert {α : Type} (le : α → α → Bool) (x : α) : List α → List α
  | [] => [x]
  | y :: ys => if le y x then y :: stableInsert le x ys else x :: y :: ys

def stableSort {α : Type} (le : α → α → Bool) (l : List α) : List α :=
  l.foldl (fun acc x => stableInsert le x acc) []

/-- JS optional-chaining result: `undefined`, `null`, or an object. -/
inductive JsRef (α : Type) where
  | undef
  | null
  | obj (a : α)
deriving DecidableEq

/-- JS strict `x !== null` (true on `undefined`). -/
def jsStrictNeNull {α : Type} : JsRef α → Bool
  | .null => false
  | _ => true

/-- JS `a?.x || b` for string-valued `x`. -/
def jsOrStr (a : Option String) (b : String) : String :=
  match a with
  | some s => if s == "" then b else s
  | none => b

namespace MongoConnector

/-! ## MongoConnector.getSampleDocuments (mongoConnector.ts, src/unnamed/part_004)

The collection is its list of documents; `countDocuments` is the length;
`find({}).skip(s).limit(l)` is `(docs.drop s).take l`.  `skip` stands for
the `Math.floor(Math.random() * Math.max(0, count - limit))` draw, and
`sampleFn` for the `$sample` aggregation stage. -/

def getSampleDocuments {α : Type} (available : Bool) (docs : List α) (limit : Nat)
    (skip : Nat) (sampleFn : Nat → List α → List α) : List α :=
  if !available then []
  else
    let count := docs.length
    if count ≤ limit then docs
    else if count < 100 then (docs.drop skip).take limit
    else sampleFn limit docs

end MongoConnector

namespace ObjectIdResolver

/-! ## ObjectIdResolver (objectIdResolver.ts, src/unnamed/part_002)

Database-driver calls are environment oracles on `OidEnv`; an `ObjectId`
is its 24-hex-character string.  Every driver call made by this module is
wrapped in its own `try/catch` returning an empty result, so the outer
`catch` of `resolveObjectIdField` is unreachable in this model. -/

structure ResolvedObjectId where
  objectId : String
  sourceCollection : String
  displayInfo : Option (List (String × String))
  confidence : ℚ
deriving DecidableEq

structure ObjectIdResolution where
  fieldName : String
  suggestedIds : List ResolvedObjectId
  possibleCollections : List String
  success : Bool
  errorMessage : Option String
deriving DecidableEq

structure OidDoc where
  oid : String
  fields : List (String × JsValue)

structure OidEnv where
  available : Bool
  collections : List String
  findDocsProj : String → Nat → List OidDoc
  findReferencing : String → String → Nat → List OidDoc
  findByIds : String → List String → List OidDoc

def FIELD_COLLECTION_MAPPINGS : List (String × List String) :=
  [("userId", ["users", "user", "accounts", "profiles"]),
   ("user_id", ["users", "user", "accounts", "profiles"]),
   ("authorId", ["users", "user", "authors", "profiles"]),
   ("author_id", ["users", "user", "authors", "profiles"]),
   ("ownerId", ["users", "user", "owners"]),
   ("owner_id", ["users", "user", "owners"]),
   ("createdBy", ["users", "user", "accounts"]),
   ("updatedBy", ["users", "user", "accounts"]),
   ("productId", ["products", "product", "items"]),
   ("product_id", ["products", "product", "items"]),
   ("itemId", ["items", "item", "products"]),
   ("item_id", ["items", "item", "products"]),
   ("orderId", ["orders", "order", "purchases"]),
   ("order_id", ["orders", "order", "purchases"]),
   ("purchaseId", ["purchases", "purchase", "orders"]),
   ("purchase_id", ["purchases", "purchase", "orders"]),
   ("categoryId", ["categories", "category", "tags"]),
   ("category_id", ["categories", "category", "tags"]),
   ("tagId", ["tags", "tag", "categories"]),
   ("tag_id", ["tags", "tag", "categories"]),
   ("postId", ["posts", "post", "articles", "blogs"]),
   ("post_id", ["posts", "post", "articles", "blogs"]),
   ("articleId", ["articles", "article", "posts"]),
   ("article_id", ["articles", "article", "posts"]),
   ("commentId", ["comments", "comment", "replies"]),
   ("comment_id", ["comments", "comment", "replies"]),
   ("fileId", ["files", "file", "uploads", "attachments"]),
   ("file_id", ["files", "file", "uploads", "attachments"]),
   ("uploadId", ["uploads", "upload", "files"]),
   ("upload_id", ["uploads", "upload", "files"]),
   ("sessionId", ["sessions", "session", "tokens"]),
   ("session_id", ["sessions", "session", "tokens"]),
   ("tokenId", ["tokens", "token", "sessions"]),
   ("token_id", ["tokens", "token", "sessions"]),
   ("organizationId", ["organizations", "organization", "orgs", "companies"]),
   ("organization_id", ["organizations", "organization", "orgs", "companies"]),
   ("companyId", ["companies", "company", "organizations"]),
   ("company_id", ["companies", "company", "organizations"]),
   ("projectId", ["projects", "project"]),
   ("project_id", ["projects", "project"]),
   ("taskId", ["tasks", "task", "todos"]),
   ("task_id", ["tasks", "task", "todos"])]

def getPossibleCollections (fieldName : String) : List String :=
  match FIELD_COLLECTION_MAPPINGS.lookup fieldName with
  | some cols => cols
  | none =>
      let lowerFieldName := jsLower fieldName
      match FIELD_COLLECTION_MAPPINGS.findSome? (fun e =>
          if jsLower e.1 == lowerFieldName then some e.2 else none) with
      | some cols => cols
      | none => []

/-- The chained `replace(/id$/).replace(/_id$/).replace(/ref$/).replace(/_ref$/)`
suffix stripping. -/
def inferCollectionFromFieldName (fieldName : String) : List String :=
  let lowerFieldName := jsLower fieldName
  let w1 := if strEndsWith lowerFieldName "id" then strDropRight lowerFieldName 2 else lowerFieldName
  let w2 := if strEndsWith w1 "_id" then strDropRight w1 3 else w1
  let w3 := if strEndsWith w2 "ref" then strDropRight w2 3 else w2
  let withoutSuffix := if strEndsWith w3 "_ref" then strDropRight w3 4 else w3
  if !(withoutSuffix == "") && !(withoutSuffix == lowerFieldName) then
    let collections := [withoutSuffix, withoutSuffix ++ "s"]
    if strEndsWith withoutSuffix "y" then
      collections ++ [strDropRight withoutSuffix 1 ++ "ies"]
    else collections
  else []

def displayFieldNames : List String :=
  ["name", "title", "username", "email", "displayName", "firstName", "lastName"]

def extractDisplayInfo (doc : OidDoc) : Option (List (String × String)) :=
  let info := displayFieldNames.foldl (fun acc field =>
    match doc.fields.lookup field with
    | some (.vStr s) => if s == "" then acc else acc ++ [(field, s)]
    | _ => acc) []
  let info :=
    match info.lookup "firstName", info.lookup "lastName" with
    | some fn, some ln => info ++ [("fullName", fn ++ " " ++ ln)]
    | _, _ => info
  if info.length > 0 then some info else none

def findReferencedObjectIds (env : OidEnv) (sourceCollection targetCollection fieldName : String)
    (limit : Nat) : List ResolvedObjectId :=
  if !env.available then []
  else
    let referencingDocs := env.findReferencing targetCollection fieldName (limit * 2)
    if referencingDocs.isEmpty then []
    else
      let referencedObjectIds := referencingDocs.filterMap (fun doc =>
        match doc.fields.lookup fieldName with
        | some (.vOid h) => some h
        | _ => none)
      let referencedDocs := env.findByIds sourceCollection referencedObjectIds
      referencedDocs.map (fun doc =>
        ⟨doc.oid, sourceCollection, extractDisplayInfo doc, 0.9⟩)

def getObjectIdsFromCollection (env : OidEnv) (collectionName fieldName : String)
    (contextCollection : Option String) (limit : Nat) : List ResolvedObjectId :=
  if !env.available then []
  else
    let referencedIds :=
      match contextCollection with
      | some ctx =>
          if !(ctx == collectionName) then
            findReferencedObjectIds env collectionName ctx fieldName limit
          else []
      | none => []
    if limit ≤ referencedIds.length then referencedIds
    else
      let documents := env.findDocsProj collectionName (limit * 2)
      let randomIds : List ResolvedObjectId := documents.map (fun doc =>
        ⟨doc.oid, collectionName, extractDisplayInfo doc,
          if referencedIds.length > 0 then 0.5 else 0.8⟩)
      let existingIds := referencedIds.map (fun r => r.objectId)
      let filteredRandomIds := randomIds.filter (fun r => !(existingIds.contains r.objectId))
      (referencedIds ++ filteredRandomIds).take limit

def sortByConfidenceDesc (l : List ResolvedObjectId) : List ResolvedObjectId :=
  stableSort (fun a b => decide (b.confidence ≤ a.confidence)) l

/-- The tail of `resolveObjectIdField` once the candidate collections are
fixed: collect, sort by confidence, truncate. -/
def finishResolve (env : OidEnv) (fieldName : String) (contextCollection : Option String)
    (limit : Nat) (existingCollections : List String) : ObjectIdResolution :=
  let allSuggestedIds := existingCollections.foldl (fun acc collectionName =>
    acc ++ getObjectIdsFromCollection env collectionName fieldName contextCollection limit) []
  let topSuggestions := (sortByConfidenceDesc allSuggestedIds).take limit
  ⟨fieldName, topSuggestions, existingCollections, true, none⟩

def resolveObjectIdField (env : OidEnv) (fieldName : String)
    (contextCollection : Option String) (limit : Nat) : ObjectIdResolution :=
  if !env.available then
    ⟨fieldName, [], [], false, some "MongoDB not connected"⟩
  else
    let possibleCollections := getPossibleCollections fieldName
    let availableCollections := env.collections
    let existingCollections := possibleCollections.filter (fun col =>
      availableCollections.contains col)
    if existingCollections.isEmpty then
      let inferredCollections := (inferCollectionFromFieldName fieldName).filter (fun col =>
        availableCollections.contains col)
      if inferredCollections.isEmpty then
        ⟨fieldName, [], availableCollections, true,
          some ("No matching collections found for field " ++ fieldName)⟩
      else finishResolve env fieldName contextCollection limit inferredCollections
    else finishResolve env fieldName contextCollection limit existingCollections

end ObjectIdResolver

namespace HybridGenerator

/-! ## HybridPayloadGenerator (hybridPayloadGenerator.ts, src/unnamed/part_005)

The LLM call, the sample-data retrieval and the schema analysis are
environment oracles; the merge, ranking and recommendation logic is
embedded from the source.  `Option MongoData` models the nullable result
of `getMongoData`. -/

structure PredictedField where
  name : String
  type : String
  required : Bool
  exampleVal : JsValue  -- the `example` field of the source (keyword in Lean)
  description : String

structure PredictedHeader where
  name : String
  value : String
  description : String
  required : Bool

structure PayloadPrediction where
  fields : List PredictedField
  headers : Option (List PredictedHeader)

structure SampleDocument where
  oid : String
  data : JsValue
  displayName : String
  summary : String

structure PrimaryData where
  collectionName : String
  confidence : ℚ
  samples : List SampleDocument

structure MongoSchemaField where
  name : String
  type : String
  frequency : ℚ
  examples : List JsValue
  isRequired : Bool
  possibleValues : Option (List JsValue)

structure CollectionSchema where
  detailedFields : List MongoSchemaField

structure MongoData where
  primary : PrimaryData
  schema : Option CollectionSchema

inductive Source
  | ai
  | mongodb
  | hybrid
deriving DecidableEq

structure MongoFieldInfo where
  type : String
  frequency : ℚ
  isRequired : Bool
  possibleValues : Option (List JsValue)

structure HybridFieldPrediction where
  name : String
  type : String
  required : Bool
  exampleVal : JsValue  -- the `example` field of the source (keyword in Lean)
  description : String
  realValues : List JsValue
  hasRealData : Bool
  confidence : ℚ
  source : Source
  mongoFieldInfo : Option MongoFieldInfo

inductive Approach
  | aiOnly
  | mongoOnly
  | hybrid
deriving DecidableEq

structure PayloadGenerationOptions where
  preferRealData : Bool
  includeAllFields : Bool
  useAIFallback : Bool
  limitFields : Option Nat
  excludeFields : List String
  forceFields : List String

structure HybridPayloadPrediction where
  fields : List HybridFieldPrediction
  collectionName : Option String
  collectionConfidence : ℚ
  sampleDocuments : List SampleDocument
  hasMongoData : Bool
  aiPrediction : Option PayloadPrediction
  recommendedApproach : Approach

structure HybridEnv where
  available : Bool
  llmResult : Option PayloadPrediction
  realDataPrimary : Option PrimaryData
  schemaFor : String → Option CollectionSchema
  fetchFieldSamples : String → String → Nat → List JsValue
  oid : ObjectIdResolver.OidEnv

/-- The `mongoData?.primary` optional chain. -/
def primaryChain (mongoData : Option MongoData) : JsRef PrimaryData :=
  match mongoData with
  | none => .undef
  | some md => .obj md.primary

def shouldSkipField (fieldName method : String) (options : PayloadGenerationOptions) : Bool :=
  if options.excludeFields.contains fieldName then true
  else if options.forceFields.contains fieldName then false
  else if strStartsWith fieldName "__" || (fieldName == "_id" && method == "POST") then true
  else if fieldName == "__v" || fieldName == "version" then true
  else if method == "POST" && (fieldName == "createdAt" || fieldName == "updatedAt") then true
  else false

def calculateFieldConfidence (aiField : Option PredictedField)
    (mongoField : Option MongoSchemaField) (realValues : List JsValue) : ℚ :=
  let confidence : ℚ := 0.5
  let confidence :=
    match mongoField with
    | some mf =>
        let c := confidence + 0.3
        let c := if mf.frequency > 80 then c + 0.1 else c
        if mf.isRequired then c + 0.1 else c
    | none => confidence
  let confidence :=
    match aiField with
    | some af =>
        let c := confidence + 0.2
        if af.required then c + 0.1 else c
    | none => confidence
  let confidence := if realValues.length > 0 then confidence + 0.2 else confidence
  let confidence :=
    match aiField, mongoField with
    | some af, some mf => if !(af.type == mf.type) then confidence - 0.1 else confidence
    | _, _ => confidence
  min (max confidence 0.1) 1

/-- `getNestedFieldValue` with dot-separated path over the value model.
Only plain objects expose properties here; `null`/`undefined`/primitives
fail the `typeof` guard, yielding `null`. -/
def getNestedGo : JsValue → List String → JsValue
  | current, [] => current
  | current, part :: rest =>
      match current with
      | .vObj fs =>
          match fs.lookup part with
          | some v => getNestedGo v rest
          | none => .vNull
      | _ => .vNull

def getNestedFieldValue (obj : JsValue) (fieldPath : String) : JsValue :=
  match obj with
  | .vObj _ => getNestedGo obj (jsSplit fieldPath (fun c => c == '.'))
  | .vArr _ => getNestedGo obj (jsSplit fieldPath (fun c => c == '.'))
  | .vDate _ => getNestedGo obj (jsSplit fieldPath (fun c => c == '.'))
  | .vOid _ => getNestedGo obj (jsSplit fieldPath (fun c => c == '.'))
  | _ => .vNull

/-- A `Date` becomes its ISO string; an object whose string form has 24
characters (the ObjectId duck test of the source) becomes that string. -/
def sanitizeValue (v : JsValue) : JsValue :=
  match v with
  | .vDate iso => .vStr iso
  | .vOid hex => if hex.data.length == 24 then .vStr hex else .vOid hex
  | _ => v

/-- Real values for a field: scan the sample documents, deduplicate by
serialized form (modelled as value equality), sanitize; if nothing was
found and a collection name is given, fall back to the field-sample
query oracle. -/
def getRealValuesForField (env : HybridEnv) (fieldName : String)
    (sampleDocuments : List SampleDocument) (collectionName : Option String) : List JsValue :=
  let acc := sampleDocuments.foldl
    (fun (acc : List JsValue × List JsValue) sample =>
      let value := getNestedFieldValue sample.data fieldName
      match value with
      | .vNull => acc
      | .vUndef => acc
      | v => if acc.2.contains v then acc else (acc.1 ++ [sanitizeValue v], acc.2 ++ [v]))
    ([], [])
  let values := acc.1
  if values.isEmpty then
    match collectionName with
    | some c => (env.fetchFieldSamples c fieldName 5).map sanitizeValue
    | none => values
  else values

/-- First merge step: one hybrid field per (non-skipped) schema field. -/
def mergeStep1 (env : HybridEnv) (aiFields : List PredictedField) (mongoData : Option MongoData)
    (method : String) (options : PayloadGenerationOptions) :
    List HybridFieldPrediction × List String :=
  match mongoData with
  | some md =>
      match md.schema with
      | some schema =>
          schema.detailedFields.foldl (fun acc mongoField =>
            if shouldSkipField mongoField.name method options then acc
            else
              let aiField := aiFields.find? (fun af => af.name == mongoField.name)
              let realValues := getRealValuesForField env mongoField.name md.primary.samples
                (some md.primary.collectionName)
              (acc.1 ++ [{
                  name := mongoField.name
                  type := jsOrStr (aiField.map (fun af => af.type)) mongoField.type
                  required := mongoField.isRequired
                  exampleVal :=
                    match realValues with
                    | v :: _ => v
                    | [] => mongoField.examples.headD .vUndef
                  description := jsOrStr (aiField.map (fun af => af.description))
                    ("Field from " ++ md.primary.collectionName ++ " collection")
                  realValues := realValues
                  hasRealData := decide (realValues.length > 0)
                  confidence := calculateFieldConfidence aiField (some mongoField) realValues
                  source := match aiField with | some _ => Source.hybrid | none => Source.mongodb
                  mongoFieldInfo := some ⟨mongoField.type, mongoField.frequency,
                    mongoField.isRequired, mongoField.possibleValues⟩ }],
               acc.2 ++ [mongoField.name])) ([], [])
      | none => ([], [])
  | none => ([], [])

/-- Second merge step: AI-only fields not already covered. -/
def mergeStep2 (env : HybridEnv) (aiFields : List PredictedField) (mongoData : Option MongoData)
    (method : String) (options : PayloadGenerationOptions)
    (acc0 : List HybridFieldPrediction × List String) :
    List HybridFieldPrediction × List String :=
  aiFields.foldl (fun acc aiField =>
    if !(acc.2.contains aiField.name) && !(shouldSkipField aiField.name method options) then
      let realValues :=
        match mongoData with
        | some md => getRealValuesForField env aiField.name md.primary.samples none
        | none => []
      (acc.1 ++ [{
          name := aiField.name
          type := aiField.type
          required := aiField.required
          exampleVal := aiField.exampleVal
          description := aiField.description
          realValues := realValues
          hasRealData := decide (realValues.length > 0)
          confidence := if realValues.length > 0 then (0.8 : ℚ) else 0.6
          source := if realValues.length > 0 then Source.hybrid else Source.ai
          mongoFieldInfo := none }],
       acc.2 ++ [aiField.name])
    else acc) acc0

def isObjectIdField (f : HybridFieldPrediction) : Bool :=
  strIncludes f.type "ObjectId" || strIncludes (jsLower f.name) "id"
    || f.realValues.any (fun v =>
        match v with
        | .vStr s => isHex24 s
        | _ => false)

/-- `resolveObjectIdFields`: in-place update of ObjectId-looking fields
with resolved references, modelled as a map over the field list. -/
def resolveObjectIdFieldsStep (oidEnv : ObjectIdResolver.OidEnv)
    (fields : List HybridFieldPrediction) (collectionName : Option String) :
    List HybridFieldPrediction :=
  if (fields.filter isObjectIdField).isEmpty then fields
  else fields.map (fun field =>
    if isObjectIdField field then
      let resolution := ObjectIdResolver.resolveObjectIdField oidEnv field.name collectionName 5
      if resolution.success && decide (resolution.suggestedIds.length > 0) then
        { field with
            realValues := (resolution.suggestedIds.take 3).map (fun r => JsValue.vStr r.objectId)
            confidence := max field.confidence 0.8
            hasRealData := true
            source := if field.source == Source.ai then Source.hybrid else field.source }
      else field
    else field)

/-- Required fields first, then by descending confidence (stable, as JS
`Array.prototype.sort` is). -/
def sortHybridFields (fields : List HybridFieldPrediction) : List HybridFieldPrediction :=
  stableSort (fun a b =>
    if a.required && !b.required then true
    else if !a.required && b.required then false
    else decide (b.confidence ≤ a.confidence)) fields

def mergeFieldPredictions (env : HybridEnv) (aiFields : List PredictedField)
    (mongoData : Option MongoData) (method : String) (options : PayloadGenerationOptions) :
    List HybridFieldPrediction :=
  let acc1 := mergeStep1 env aiFields mongoData method options
  let acc2 := mergeStep2 env aiFields mongoData method options acc1
  let resolved := resolveObjectIdFieldsStep env.oid acc2.1
    (mongoData.map (fun md => md.primary.collectionName))
  let sorted := sortHybridFields resolved
  match options.limitFields with
  | some n => if n > 0 then sorted.take n else sorted
  | none => sorted

def getAIPrediction (env : HybridEnv) (options : PayloadGenerationOptions) :
    Option PayloadPrediction :=
  if !options.useAIFallback && !options.preferRealData then none
  else env.llmResult

def getMongoData (env : HybridEnv) : Option MongoData :=
  match env.realDataPrimary with
  | none => none
  | some p => some ⟨p, env.schemaFor p.collectionName⟩

def determineRecommendedApproach (aiPrediction : Option PayloadPrediction)
    (mongoData : Option MongoData) (options : PayloadGenerationOptions) : Approach :=
  let hasAI :=
    match aiPrediction with
    | some a => decide (a.fields.length > 0)
    | none => false
  let hasMongo :=
    match mongoData with
    | some md => decide (md.primary.samples.length > 0)
    | none => false
  if !hasAI && !hasMongo then .aiOnly
  else if !hasAI && hasMongo then .mongoOnly
  else if hasAI && !hasMongo then .aiOnly
  else
    match mongoData with
    | some md =>
        if options.preferRealData then
          if md.primary.confidence > 0.6 then .hybrid else .aiOnly
        else .hybrid
    | none => .hybrid

/-- `generateHybridPrediction`, happy path (the outer `catch` is the
fallback for exceptions, which the embedded operations do not raise). -/
def generateHybridPrediction (env : HybridEnv) (method : String)
    (options : PayloadGenerationOptions) : HybridPayloadPrediction :=
  let hasMongoConnection := env.available
  let aiPrediction := getAIPrediction env options
  let mongoData := if hasMongoConnection then getMongoData env else none
  let recommendedApproach := determineRecommendedApproach aiPrediction mongoData options
  let hybridFields := mergeFieldPredictions env
    ((aiPrediction.map (fun a => a.fields)).getD []) mongoData method options
  { fields := hybridFields
    collectionName := mongoData.map (fun md => md.primary.collectionName)
    collectionConfidence := (mongoData.map (fun md => md.primary.confidence)).getD 0
    sampleDocuments := (mongoData.map (fun md => md.primary.samples)).getD []
    hasMongoData := hasMongoConnection && jsStrictNeNull (primaryChain mongoData)
    aiPrediction := aiPrediction
    recommendedApproach := recommendedApproach }

end HybridGenerator

namespace ControllerResolver

/-! ## PayloadPredictor.findControllerFunctionInAST (src/unnamed/part_007)

The traversal is the list of visited nodes in traversal order; each node
carries the shape information the four visitors inspect.  Every visitor
assigns the candidate slots unconditionally on a match. -/

structure ControllerContext where
  reqBodyFields : List String
  controllerCode : String
  functionName : String
  startLine : Nat
  endLine : Nat
deriving DecidableEq

inductive CInit
  | funcInit
  | otherInit
  | noInit
deriving DecidableEq

inductive CNode
  | funcDecl (idName : Option String) (startLine endLine : Nat)
  | varDecl (idName : Option String) (ini : CInit) (startLine endLine : Nat)
  | assignExpr (leftObj leftProp : Option String) (rightIsFunc : Bool) (startLine endLine : Nat)
  | objMethod (keyName : Option String) (startLine endLine : Nat)
  | memberExpr (innerObj innerProp propName : Option String)
  | otherNode
deriving DecidableEq

/-- Whether a node matches the searched function under one of the four
patterns, and the (name, startLine, endLine) it would record. -/
def matchCandidate (targetFunction : String) (n : CNode) : Option (String × Nat × Nat) :=
  match n with
  | .funcDecl (some nm) s e => if nm == targetFunction then some (nm, s, e) else none
  | .varDecl (some nm) .funcInit s e => if nm == targetFunction then some (nm, s, e) else none
  | .assignExpr (some o) (some pr) true s e =>
      if (o == "exports" || o == "module") && pr == targetFunction then some (pr, s, e) else none
  | .objMethod (some k) s e => if k == targetFunction then some (k, s, e) else none
  | _ => none

/-- Unconditional overwrite of the candidate slots on a match. -/
def updOpt {α : Type} (a b : Option α) : Option α :=
  match b with
  | some v => some v
  | none => a

def findControllerFunctionInAST (nodes : List CNode) (targetFunction : String)
    (fileLines : List String) : Option ControllerContext :=
  let found := nodes.foldl (fun acc n => updOpt acc (matchCandidate targetFunction n)) none
  match found with
  | none => none
  | some (nm, startLine, endLine) =>
      let reqBodyFields := nodes.foldl (fun acc n =>
        match n with
        | .memberExpr (some "req") (some "body") (some f) => acc ++ [f]
        | _ => acc) []
      let controllerCode :=
        String.intercalate "\n" ((fileLines.drop (startLine - 1)).take (endLine - (startLine - 1)))
      some ⟨reqBodyFields.foldl insertUniq [], controllerCode, nm, startLine, endLine⟩

end ControllerResolver

/-! ## Concrete fixtures used by witnesses and counterexamples -/

namespace Fixtures

open HybridGenerator ObjectIdResolver

/-- The path-segment inference for `GET /api/v1/products/:id`. -/
def infPathC7 : CollectionInferencer.CollectionInference :=
  ⟨"product", min ((0.5 : ℚ) + 0.3 + 0.2 + 0.1) 1, "Inferred from path segment: products",
    ["products", "products"]⟩

def infSpecialC7 : CollectionInferencer.CollectionInference :=
  ⟨"unknown", 0, "No special cases matched", []⟩

def infMethodC7 : CollectionInferencer.CollectionInference :=
  ⟨"product", (0.3 : ℚ) + 0.2, "REST pattern: GET suggests collection", ["products"]⟩

/-- A file system in which no relative import resolves. -/
def rdEnv0 : RouteDetection.RDEnv := ⟨fun _ _ => none⟩

/-- `app.use('/api', router); router.get('/users/:id', getUser)`. -/
def fileC1 : RouteDetection.RFile :=
  ⟨"app.js", some
    [.call (.member (some "app") (some "use")) [.strLit "/api", .ident "router"] 2,
     .call (.member (some "router") (some "get")) [.strLit "/users/:id", .ident "getUser"] 3]⟩

def routeC1 : RouteDetection.DetectedRoute :=
  ⟨"GET", "/api/users/:id", "app.js", 3, [], "getUser", none, none⟩

/-- `router.get('users', h)`: a path literal without a leading slash. -/
def fileC1bad : RouteDetection.RFile :=
  ⟨"routes.js", some
    [.call (.member (some "router") (some "get")) [.strLit "users", .ident "h"] 1]⟩

def oidEnvOff : OidEnv :=
  ⟨false, [], fun _ _ => [], fun _ _ _ => [], fun _ _ => []⟩

def oidEnvBare : OidEnv :=
  ⟨true, [], fun _ _ => [], fun _ _ _ => [], fun _ _ => []⟩

def aiFieldC4 : PredictedField := ⟨"username", "string", true, .vStr "alice", "a user name"⟩

def aiC4 : PayloadPrediction := ⟨[aiFieldC4], none⟩

def optsDefault : PayloadGenerationOptions :=
  ⟨true, false, true, some 15, ["__v", "_id"], []⟩

def envC4 : HybridEnv :=
  ⟨false, some aiC4, none, fun _ => none, fun _ _ _ => [], oidEnvOff⟩

def envC9 : HybridEnv :=
  ⟨true, none, none, fun _ => none, fun _ _ _ => [], oidEnvOff⟩

def sampleC6 : SampleDocument := ⟨"a1", .vObj [], "doc", "summary"⟩

def mdC6 : MongoData := ⟨⟨"users", 0.5, [sampleC6]⟩, none⟩

def optsC6 : PayloadGenerationOptions :=
  ⟨false, false, true, none, [], []⟩

def mfC5 : MongoSchemaField := ⟨"color", "string", 50, [.vStr "red"], false, none⟩

/-- A schema that lists a field `color` which no sample document carries. -/
def mdC5 : MongoData :=
  ⟨⟨"widgets", 0.9, [⟨"b2", .vObj [("name", .vStr "w")], "w", "s"⟩]⟩, some ⟨[mfC5]⟩⟩

def envC5 : HybridEnv :=
  ⟨true, none, some mdC5.primary, fun _ => mdC5.schema, fun _ _ _ => [], oidEnvBare⟩

/-- The field the merge produces for `mfC5` when neither the samples nor
the field-sample fetch yield a value: source "mongodb", no real data. -/
def fieldC5 : HybridFieldPrediction :=
  ⟨"color", "string", false, .vStr "red", "Field from widgets collection", [], false,
    HybridGenerator.calculateFieldConfidence none (some mfC5) [], .mongodb,
    some ⟨"string", 50, false, none⟩⟩

end Fixtures

/-! ## Helper lemmas -/

theorem foldl_inv {α σ : Type} (P : σ → Prop) (step : σ → α → σ) :
    ∀ (l : List α) (s : σ), P s → (∀ s a, a ∈ l → P s → P (step s a)) → P (l.foldl step s) := by
  intro l
  induction l with
  | nil => intro s hs _; exact hs
  | cons a t ih =>
      intro s hs hstep
      exact ih (step s a) (hstep s a (List.mem_cons_self a t) hs)
        (fun s' b hb => hstep s' b (List.mem_cons_of_mem a hb))

theorem mem_stableInsert {α : Type} (le : α → α → Bool) (x a : α) :
    ∀ l : List α, a ∈ stableInsert le x l ↔ a = x ∨ a ∈ l := by
  intro l
  induction l with
  | nil => simp [stableInsert]
  | cons y ys ih =>
      by_cases h : le y x = true
      · simp only [stableInsert, h, if_true, List.mem_cons, ih]
        tauto
      · simp only [stableInsert, h, if_false, Bool.not_eq_true] at *
        simp [List.mem_cons]

theorem mem_stableSort {α : Type} (le : α → α → Bool) (a : α) (l : List α) :
    a ∈ stableSort le l ↔ a ∈ l := by
  suffices h : ∀ (l acc : List α), a ∈ l.foldl (fun acc x => stableInsert le x acc) acc ↔
      a ∈ acc ∨ a ∈ l by
    have := h l []
    simpa [stableSort] using this
  intro l
  induction l with
  | nil => simp
  | cons x xs ih =>
      intro acc
      rw [List.foldl_cons, ih, mem_stableInsert]
      simp [List.mem_cons]
      tauto

theorem updOpt_assoc {α : Type} (a b c : Option α) :
    ControllerResolver.updOpt (ControllerResolver.updOpt a b) c
      = ControllerResolver.updOpt a (ControllerResolver.updOpt b c) := by
  cases c <;> cases b <;> rfl

theorem getLast?_cons_eq_updOpt {α : Type} (v : α) (l : List α) :
    (v :: l).getLast? = ControllerResolver.updOpt (some v) l.getLast? := by
  induction l with
  | nil => rfl
  | cons x xs _ =>
      rw [List.getLast?_cons_cons]
      cases h : (x :: xs).getLast? with
      | none => exact absurd h (by simp)
      | some w => rfl

theorem foldl_updOpt_eq_getLast {α β : Type} (f : β → Option α) :
    ∀ (nodes : List β) (acc : Option α),
      nodes.foldl (fun a n => ControllerResolver.updOpt a (f n)) acc
        = ControllerResolver.updOpt acc (nodes.filterMap f).getLast? := by
  intro nodes
  induction nodes with
  | nil => intro acc; rfl
  | cons n ns ih =>
      intro acc
      rw [List.foldl_cons, ih]
      cases h : f n with
      | none => simp [List.filterMap_cons, h, ControllerResolver.updOpt]
      | some v =>
          simp only [List.filterMap_cons, h]
          rw [getLast?_cons_eq_updOpt, ← updOpt_assoc]

/-! ## Claim C8 -/

/-- C8: `detectRoutesInFile` leaves the detector state (routes, prefix
map, both import maps) exactly as it was, even on a parse failure, and
therefore a full scan with interleaved `detectRoutesInFile` calls ends in
the same state (hence the same route list) as the scan alone. -/
theorem claim_C8_detectRoutesInFile_frame :
    (∀ (env : RouteDetection.RDEnv) (s : RouteDetection.DetectorState) (f : RouteDetection.RFile),
      (RouteDetection.detectRoutesInFile env s f).2 = s) ∧
    (∀ (env : RouteDetection.RDEnv) (s : RouteDetection.DetectorState)
        (ops : List RouteDetection.ScanOp),
      RouteDetection.runOps env s ops
        = RouteDetection.runOps env s (ops.filter RouteDetection.isFileOp)) := by
  constructor
  · intro env s f; rfl
  · intro env s ops
    induction ops generalizing s with
    | nil => rfl
    | cons op rest ih =>
        cases op with
        | fileOp f =>
            simp only [RouteDetection.runOps, RouteDetection.isFileOp, List.filter_cons_of_pos]
            exact ih _
        | probeOp f =>
            simp only [RouteDetection.runOps, RouteDetection.isFileOp, List.filter_cons_of_neg,
              Bool.false_eq_true, not_false_eq_true, RouteDetection.detectRoutesInFile]
            exact ih _

/-! ## Claim C2 -/

/-- C2 (amended): in `findControllerFunctionInAST` every visitor
overwrites the recorded candidate unconditionally, so the context
returned records the name and line range of the LAST node (in traversal
order) matching the searched name under the four patterns — not the
first. -/
theorem claim_C2_last_match_recorded :
    ∀ (nodes : List ControllerResolver.CNode) (targetFunction : String)
      (fileLines : List String),
      (ControllerResolver.findControllerFunctionInAST nodes targetFunction fileLines).map
          (fun c => (c.functionName, c.startLine, c.endLine))
        = (nodes.filterMap (ControllerResolver.matchCandidate targetFunction)).getLast? := by
  intro nodes target lines
  unfold ControllerResolver.findControllerFunctionInAST
  rw [foldl_updOpt_eq_getLast]
  cases h : (nodes.filterMap (ControllerResolver.matchCandidate target)).getLast? with
  | none => simp [ControllerResolver.updOpt]
  | some v =>
      obtain ⟨nm, s, e⟩ := v
      simp [ControllerResolver.updOpt]

/-- C2 counterexample: a file with two `function foo` declarations (lines
1-3 and 5-9); the recorded range is the second (last) match, line 5, not
the first match at line 1 as the claim states. -/
theorem claim_C2_counterexample :
    ((ControllerResolver.findControllerFunctionInAST
        [ControllerResolver.CNode.funcDecl (some "foo") 1 3,
         ControllerResolver.CNode.funcDecl (some "foo") 5 9] "foo"
        ["a", "b", "c", "d", "e", "f", "g", "h", "i"]).map
      (fun c => c.startLine)) = some 5 ∧ (5 : Nat) ≠ 1 := by
  constructor
  · rfl
  · decide

/-! ## Claim C3 -/

/-- C3: the sampling policy of `getSampleDocuments` on an available
connection: all documents when the count is at most `limit`; exactly
`limit` documents via skip+limit when `limit < count < 100`, for every
skip the `Math.random` draw can produce (any `skip < count - limit`);
exactly `limit` via `$sample` when `count ≥ 100` (the `$sample` stage
returning `min size count` documents); `[]` on an empty collection. -/
theorem claim_C3_sampling_policy :
    ∀ {α : Type} (docs : List α) (limit skip : Nat) (sampleFn : Nat → List α → List α),
      (∀ n ds, (sampleFn n ds).length = min n ds.length) →
      (docs.length ≤ limit →
        MongoConnector.getSampleDocuments true docs limit skip sampleFn = docs) ∧
      (limit < docs.length → docs.length < 100 → skip < docs.length - limit →
        (MongoConnector.getSampleDocuments true docs limit skip sampleFn).length = limit) ∧
      (limit < docs.length → 100 ≤ docs.length →
        (MongoConnector.getSampleDocuments true docs limit skip sampleFn).length = limit) ∧
      (docs = [] → MongoConnector.getSampleDocuments true docs limit skip sampleFn = []) := by
  intro α docs limit skip sampleFn hsample
  refine ⟨?_, ?_, ?_, ?_⟩
  · intro hle
    simp [MongoConnector.getSampleDocuments, hle]
  · intro hgt hlt hskip
    have hnle : ¬(docs.length ≤ limit) := by omega
    simp only [MongoConnector.getSampleDocuments, Bool.not_true, Bool.false_eq_true,
      if_false, hnle, hlt, if_true, if_neg hnle, if_pos hlt]
    rw [List.length_take, List.length_drop]
    omega
  · intro hgt hge
    have hnle : ¬(docs.length ≤ limit) := by omega
    have hnlt : ¬(docs.length < 100) := by omega
    simp only [MongoConnector.getSampleDocuments, if_neg hnle, if_neg hnlt, Bool.not_true,
      Bool.false_eq_true, if_false]
    rw [hsample]
    omega
  · intro hnil
    subst hnil
    simp [MongoConnector.getSampleDocuments]

/-- C3 witness at the boundaries: `count = limit` (all returned),
`limit < count < 100` (skip path, exactly `limit`), `count = 100`
(`$sample` path, exactly `limit`), empty collection. -/
theorem claim_C3_witness :
    MongoConnector.getSampleDocuments true [0, 1, 2] 3 0 (fun n ds => ds.take n) = [0, 1, 2] ∧
    (MongoConnector.getSampleDocuments true [0, 1, 2, 3, 4] 3 1 (fun n ds => ds.take n)).length
      = 3 ∧
    (MongoConnector.getSampleDocuments true (List.range 100) 3 0 (fun n ds => ds.take n)).length
      = 3 ∧
    MongoConnector.getSampleDocuments true ([] : List Nat) 3 0 (fun n ds => ds.take n) = [] := by
  have hs : ∀ (β : Type) (n : Nat) (ds : List β), (ds.take n).length = min n ds.length :=
    fun β n ds => List.length_take n ds
  refine ⟨?_, ?_, ?_, ?_⟩
  · exact (claim_C3_sampling_policy [0, 1, 2] 3 0 _ (hs Nat)).1 (by decide)
  · exact (claim_C3_sampling_policy [0, 1, 2, 3, 4] 3 1 _ (hs Nat)).2.1 (by decide) (by decide)
      (by decide)
  · exact (claim_C3_sampling_policy (List.range 100) 3 0 _ (hs Nat)).2.2.1
      (by simp) (by simp)
  · exact (claim_C3_sampling_policy ([] : List Nat) 3 0 _ (hs Nat)).2.2.2 rfl

/-! ## Claim C4 -/

/-- C4: when the data-store connection is unavailable and the LLM
prediction succeeded with a non-empty field list, the hybrid result
recommends "ai-only" and reports `hasMongoData = false`. -/
theorem claim_C4_unavailable_ai_only :
    ∀ (env : HybridGenerator.HybridEnv) (method : String)
      (options : HybridGenerator.PayloadGenerationOptions)
      (ai : HybridGenerator.PayloadPrediction),
      env.available = false →
      HybridGenerator.getAIPrediction env options = some ai →
      ai.fields ≠ [] →
      (HybridGenerator.generateHybridPrediction env method options).recommendedApproach
          = HybridGenerator.Approach.aiOnly ∧
      (HybridGenerator.generateHybridPrediction env method options).hasMongoData = false := by
  intro env method options ai hav hai hfields
  have hlen : decide (ai.fields.length > 0) = true := by
    simp [List.length_pos, hfields]
  constructor
  · simp only [HybridGenerator.generateHybridPrediction, hav, Bool.false_eq_true, if_false, hai]
    simp [HybridGenerator.determineRecommendedApproach, hlen]
  · simp [HybridGenerator.generateHybridPrediction, hav]

/-- C4 witness: a concrete unavailable environment whose LLM result has
one field. -/
theorem claim_C4_unavailable_witness :
    (HybridGenerator.generateHybridPrediction Fixtures.envC4 "POST"
        Fixtures.optsDefault).recommendedApproach = HybridGenerator.Approach.aiOnly ∧
    (HybridGenerator.generateHybridPrediction Fixtures.envC4 "POST"
        Fixtures.optsDefault).hasMongoData = false :=
  claim_C4_unavailable_ai_only Fixtures.envC4 "POST" Fixtures.optsDefault Fixtures.aiC4
    rfl rfl (by simp [Fixtures.aiC4])

/-! ## Claim C9 -/

/-- C9: with an available connection but a null `getMongoData` result,
the strict check `mongoData?.primary !== null` is true (optional chaining
yields `undefined`, and `undefined !== null`), so `hasMongoData` is true
while `collectionName` is undefined, `sampleDocuments` is empty and
`collectionConfidence` is 0. -/
theorem claim_C9_null_mongo_quirk :
    ∀ (env : HybridGenerator.HybridEnv) (method : String)
      (options : HybridGenerator.PayloadGenerationOptions),
      env.available = true →
      env.realDataPrimary = none →
      (HybridGenerator.generateHybridPrediction env method options).hasMongoData = true ∧
      (HybridGenerator.generateHybridPrediction env method options).collectionName = none ∧
      (HybridGenerator.generateHybridPrediction env method options).sampleDocuments = [] ∧
      (HybridGenerator.generateHybridPrediction env method options).collectionConfidence = 0 := by
  intro env method options hav hrd
  have hmd : HybridGenerator.getMongoData env = none := by
    simp [HybridGenerator.getMongoData, hrd]
  refine ⟨?_, ?_, ?_, ?_⟩ <;>
    simp [HybridGenerator.generateHybridPrediction, hav, hmd, HybridGenerator.primaryChain,
      jsStrictNeNull]

/-- C9 witness: a concrete available environment where the data-retrieval
path yields no usable collection. -/
theorem claim_C9_null_mongo_witness :
    (HybridGenerator.generateHybridPrediction Fixtures.envC9 "GET"
        Fixtures.optsDefault).hasMongoData = true ∧
    (HybridGenerator.generateHybridPrediction Fixtures.envC9 "GET"
        Fixtures.optsDefault).collectionName = none ∧
    (HybridGenerator.generateHybridPrediction Fixtures.envC9 "GET"
        Fixtures.optsDefault).sampleDocuments = [] ∧
    (HybridGenerator.generateHybridPrediction Fixtures.envC9 "GET"
        Fixtures.optsDefault).collectionConfidence = 0 :=
  claim_C9_null_mongo_quirk Fixtures.envC9 "GET" Fixtures.optsDefault rfl rfl

/-! ## Claim C6 -/

/-- C6 (amended): with both LLM fields and sample data present,
`determineRecommendedApproach` returns "ai-only" exactly when the caller
PREFERS real data and the sample confidence is not above 0.6 (the claim
had the preference inverted), and "hybrid" exactly when the caller
prefers real data with confidence above 0.6 or expresses no preference. -/
theorem claim_C6_recommendation_amended :
    ∀ (a : HybridGenerator.PayloadPrediction) (md : HybridGenerator.MongoData)
      (options : HybridGenerator.PayloadGenerationOptions),
      a.fields ≠ [] → md.primary.samples ≠ [] →
      ((HybridGenerator.determineRecommendedApproach (some a) (some md) options
          = HybridGenerator.Approach.aiOnly ↔
        options.preferRealData = true ∧ ¬(md.primary.confidence > 0.6)) ∧
       (HybridGenerator.determineRecommendedApproach (some a) (some md) options
          = HybridGenerator.Approach.hybrid ↔
        (options.preferRealData = true ∧ md.primary.confidence > 0.6) ∨
          options.preferRealData = false)) := by
  intro a md options hf hs
  have hA : decide (a.fields.length > 0) = true := by simp [List.length_pos, hf]
  have hM : decide (md.primary.samples.length > 0) = true := by simp [List.length_pos, hs]
  by_cases hp : options.preferRealData = true
  · by_cases hc : md.primary.confidence > 0.6
    · simp [HybridGenerator.determineRecommendedApproach, hA, hM, hp, hc]
    · simp [HybridGenerator.determineRecommendedApproach, hA, hM, hp, hc]
  · have hp' : options.preferRealData = false := by
      cases h : options.preferRealData
      · rfl
      · exact absurd h hp
    simp [HybridGenerator.determineRecommendedApproach, hA, hM, hp']

/-- C6 witness: both sources present, caller prefers real data,
confidence 0.5 (not above the threshold). -/
theorem claim_C6_recommendation_witness :
    (HybridGenerator.determineRecommendedApproach (some Fixtures.aiC4) (some Fixtures.mdC6)
        Fixtures.optsDefault = HybridGenerator.Approach.aiOnly ↔
      Fixtures.optsDefault.preferRealData = true ∧ ¬(Fixtures.mdC6.primary.confidence > 0.6)) ∧
    (HybridGenerator.determineRecommendedApproach (some Fixtures.aiC4) (some Fixtures.mdC6)
        Fixtures.optsDefault = HybridGenerator.Approach.hybrid ↔
      (Fixtures.optsDefault.preferRealData = true ∧ Fixtures.mdC6.primary.confidence > 0.6) ∨
        Fixtures.optsDefault.preferRealData = false) :=
  claim_C6_recommendation_amended Fixtures.aiC4 Fixtures.mdC6 Fixtures.optsDefault
    (by simp [Fixtures.aiC4]) (by simp [Fixtures.mdC6, Fixtures.sampleC6])

/-- C6 counterexample: both sources present, the caller does NOT prefer
real data and sample confidence is 0.5 (not above 0.6); the claim then
demands "ai-only", but the code returns "hybrid". -/
theorem claim_C6_counterexample :
    ¬ ((HybridGenerator.determineRecommendedApproach (some Fixtures.aiC4) (some Fixtures.mdC6)
          Fixtures.optsC6 = HybridGenerator.Approach.aiOnly) ↔
        (Fixtures.optsC6.preferRealData = false ∧
          ¬(Fixtures.mdC6.primary.confidence > 0.6))) := by
  intro h
  have hres : HybridGenerator.determineRecommendedApproach (some Fixtures.aiC4)
      (some Fixtures.mdC6) Fixtures.optsC6 = HybridGenerator.Approach.hybrid := rfl
  have hcontra := h.mpr ⟨rfl, by simp only [Fixtures.mdC6]; norm_num⟩
  rw [hres] at hcontra
  exact absurd hcontra (by decide)

/-! ## Claim C10 -/

/-- C10: `resolveObjectIdField` returns `success = false` only when the
connection is unavailable (its try body cannot throw in this model, every
driver call being individually guarded in the source); when available but
neither the mapping table nor the suffix-stripping inference yields an
existing collection, it returns `success = true`, empty `suggestedIds`,
an error message, and the full available-collection list as
`possibleCollections`. -/
theorem claim_C10_success_semantics :
    ∀ (env : ObjectIdResolver.OidEnv) (fieldName : String) (ctx : Option String) (limit : Nat),
      ((ObjectIdResolver.resolveObjectIdField env fieldName ctx limit).success = false →
        env.available = false) ∧
      (env.available = true →
        (ObjectIdResolver.getPossibleCollections fieldName).filter
            (fun col => env.collections.contains col) = [] →
        (ObjectIdResolver.inferCollectionFromFieldName fieldName).filter
            (fun col => env.collections.contains col) = [] →
        (ObjectIdResolver.resolveObjectIdField env fieldName ctx limit).success = true ∧
        (ObjectIdResolver.resolveObjectIdField env fieldName ctx limit).suggestedIds = [] ∧
        (ObjectIdResolver.resolveObjectIdField env fieldName ctx limit).errorMessage ≠ none ∧
        (ObjectIdResolver.resolveObjectIdField env fieldName ctx limit).possibleCollections
          = env.collections) := by
  intro env fieldName ctx limit
  constructor
  · intro hfail
    cases hav : env.available with
    | false => rfl
    | true =>
        exfalso
        rw [ObjectIdResolver.resolveObjectIdField, hav] at hfail
        simp only [Bool.not_true, Bool.false_eq_true, if_false] at hfail
        by_cases h1 : (ObjectIdResolver.getPossibleCollections fieldName).filter
            (fun col => env.collections.contains col) |>.isEmpty
        · rw [if_pos h1] at hfail
          by_cases h2 : (ObjectIdResolver.inferCollectionFromFieldName fieldName).filter
              (fun col => env.collections.contains col) |>.isEmpty
          · rw [if_pos h2] at hfail
            exact absurd hfail (by simp)
          · rw [if_neg h2] at hfail
            exact absurd hfail (by simp [ObjectIdResolver.finishResolve])
        · rw [if_neg h1] at hfail
          exact absurd hfail (by simp [ObjectIdResolver.finishResolve])
  · intro hav h1 h2
    have e1 : ((ObjectIdResolver.getPossibleCollections fieldName).filter
        (fun col => env.collections.contains col)).isEmpty = true := by
      rw [h1]; rfl
    have e2 : ((ObjectIdResolver.inferCollectionFromFieldName fieldName).filter
        (fun col => env.collections.contains col)).isEmpty = true := by
      rw [h2]; rfl
    have key : ObjectIdResolver.resolveObjectIdField env fieldName ctx limit
        = ⟨fieldName, [], env.collections, true,
            some ("No matching collections found for field " ++ fieldName)⟩ := by
      rw [ObjectIdResolver.resolveObjectIdField, hav]
      simp only [Bool.not_true, Bool.false_eq_true, if_false, e1, e2, if_true]
    rw [key]
    exact ⟨rfl, rfl, by simp, rfl⟩

/-- C10 witness: an unavailable environment (for the failure direction)
and an available empty database with the unmapped field name "foo" (for
the no-match branch). -/
theorem claim_C10_success_witness :
    Fixtures.oidEnvOff.available = false ∧
    ((ObjectIdResolver.resolveObjectIdField Fixtures.oidEnvBare "foo" none 5).success = true ∧
     (ObjectIdResolver.resolveObjectIdField Fixtures.oidEnvBare "foo" none 5).suggestedIds = [] ∧
     (ObjectIdResolver.resolveObjectIdField Fixtures.oidEnvBare "foo" none 5).errorMessage
        ≠ none ∧
     (ObjectIdResolver.resolveObjectIdField Fixtures.oidEnvBare "foo" none 5).possibleCollections
        = Fixtures.oidEnvBare.collections) :=
  ⟨(claim_C10_success_semantics Fixtures.oidEnvOff "foo" none 5).1 rfl,
   (claim_C10_success_semantics Fixtures.oidEnvBare "foo" none 5).2 rfl rfl rfl⟩

/-! ## Claim C5 -/

theorem decide_length_pos_eq_not_isEmpty {α : Type} (l : List α) :
    decide (l.length > 0) = !l.isEmpty := by
  cases l <;> simp

theorem mergeStep1_hasRealData :
    ∀ (env : HybridGenerator.HybridEnv) (aiFields : List HybridGenerator.PredictedField)
      (mongoData : Option HybridGenerator.MongoData) (method : String)
      (options : HybridGenerator.PayloadGenerationOptions)
      (g : HybridGenerator.HybridFieldPrediction),
      g ∈ (HybridGenerator.mergeStep1 env aiFields mongoData method options).1 →
      g.hasRealData = !g.realValues.isEmpty := by
  intro env aiFields mongoData method options g
  unfold HybridGenerator.mergeStep1
  cases mongoData with
  | none => simp
  | some md =>
      cases hs : md.schema with
      | none => simp [hs]
      | some schema =>
          simp only [hs]
          intro hg
          refine foldl_inv
            (fun (acc : List HybridGenerator.HybridFieldPrediction × List String) =>
              ∀ x ∈ acc.1, x.hasRealData = !x.realValues.isEmpty) _
            schema.detailedFields ([], []) (by simp) ?_ g hg
          intro acc mf _ hacc x hx
          by_cases hskip : HybridGenerator.shouldSkipField mf.name method options = true
          · rw [if_pos hskip] at hx
            exact hacc x hx
          · rw [if_neg hskip] at hx
            rcases List.mem_append.mp hx with h | h
            · exact hacc x h
            · rcases List.mem_singleton.mp h with rfl
              exact decide_length_pos_eq_not_isEmpty _

theorem mergeStep2_hasRealData :
    ∀ (env : HybridGenerator.HybridEnv) (aiFields : List HybridGenerator.PredictedField)
      (mongoData : Option HybridGenerator.MongoData) (method : String)
      (options : HybridGenerator.PayloadGenerationOptions)
      (acc0 : List HybridGenerator.HybridFieldPrediction × List String)
      (g : HybridGenerator.HybridFieldPrediction),
      (∀ x ∈ acc0.1, x.hasRealData = !x.realValues.isEmpty) →
      g ∈ (HybridGenerator.mergeStep2 env aiFields mongoData method options acc0).1 →
      g.hasRealData = !g.realValues.isEmpty := by
  intro env aiFields mongoData method options acc0 g hacc0 hg
  refine foldl_inv
    (fun (acc : List HybridGenerator.HybridFieldPrediction × List String) =>
      ∀ x ∈ acc.1, x.hasRealData = !x.realValues.isEmpty) _
    aiFields acc0 hacc0 ?_ g hg
  intro acc af _ hacc x hx
  by_cases hcond : (!(acc.2.contains af.name)
      && !(HybridGenerator.shouldSkipField af.name method options)) = true
  · rw [if_pos hcond] at hx
    rcases List.mem_append.mp hx with h | h
    · exact hacc x h
    · rcases List.mem_singleton.mp h with rfl
      exact decide_length_pos_eq_not_isEmpty _
  · rw [if_neg hcond] at hx
    exact hacc x hx

theorem resolveStep_hasRealData :
    ∀ (oidEnv : ObjectIdResolver.OidEnv)
      (fields : List HybridGenerator.HybridFieldPrediction) (cn : Option String)
      (g : HybridGenerator.HybridFieldPrediction),
      (∀ x ∈ fields, x.hasRealData = !x.realValues.isEmpty) →
      g ∈ HybridGenerator.resolveObjectIdFieldsStep oidEnv fields cn →
      g.hasRealData = !g.realValues.isEmpty := by
  intro oidEnv fields cn g hbase
  unfold HybridGenerator.resolveObjectIdFieldsStep
  by_cases hempty : (fields.filter HybridGenerator.isObjectIdField).isEmpty = true
  · rw [if_pos hempty]
    exact hbase g
  · rw [if_neg hempty]
    intro hg
    rcases List.mem_map.mp hg with ⟨x, hx, hfx⟩
    by_cases hoid : HybridGenerator.isObjectIdField x = true
    · rw [if_pos hoid] at hfx
      set resolution := ObjectIdResolver.resolveObjectIdField oidEnv x.name cn 5 with hres
      by_cases hok : (resolution.success && decide (resolution.suggestedIds.length > 0)) = true
      · rw [if_pos hok] at hfx
        have hlen : resolution.suggestedIds.length > 0 := by
          have := (Bool.and_eq_true _ _).mp hok
          exact of_decide_eq_true this.2
        subst hfx
        cases hids : resolution.suggestedIds with
        | nil => rw [hids] at hlen; simp at hlen
        | cons a t => simp [hids]
      · rw [if_neg hok] at hfx
        subst hfx
        exact hbase x hx
    · rw [if_neg hoid] at hfx
      subst hfx
      exact hbase x hx

/-- C5 (amended): every field produced by `mergeFieldPredictions` — in
particular every field with source "mongodb" — has `hasRealData` equal to
"its `realValues` list is non-empty".  A mongodb-sourced field therefore
has `hasRealData = true` exactly when a real value was found in the
samples, the field-sample fetch, or ObjectId resolution; it is NOT always
true, contrary to the claim. -/
theorem claim_C5_mongodb_hasRealData_amended :
    ∀ (env : HybridGenerator.HybridEnv) (aiFields : List HybridGenerator.PredictedField)
      (mongoData : Option HybridGenerator.MongoData) (method : String)
      (options : HybridGenerator.PayloadGenerationOptions)
      (f : HybridGenerator.HybridFieldPrediction),
      f ∈ HybridGenerator.mergeFieldPredictions env aiFields mongoData method options →
      f.source = HybridGenerator.Source.mongodb →
      f.hasRealData = !f.realValues.isEmpty := by
  intro env aiFields mongoData method options f hmem _
  have hsorted : f ∈ HybridGenerator.sortHybridFields
      (HybridGenerator.resolveObjectIdFieldsStep env.oid
        (HybridGenerator.mergeStep2 env aiFields mongoData method options
          (HybridGenerator.mergeStep1 env aiFields mongoData method options)).1
        (mongoData.map (fun md => md.primary.collectionName))) := by
    unfold HybridGenerator.mergeFieldPredictions at hmem
    cases hl : options.limitFields with
    | none => simp only [hl] at hmem; exact hmem
    | some n =>
        by_cases hn : n > 0
        · simp only [hl, if_pos hn] at hmem
          exact List.mem_of_mem_take hmem
        · simp only [hl, if_neg hn] at hmem
          exact hmem
  rw [HybridGenerator.sortHybridFields, mem_stableSort] at hsorted
  refine resolveStep_hasRealData env.oid _ _ f ?_ hsorted
  intro x hx
  exact mergeStep2_hasRealData env aiFields mongoData method options _ x
    (fun y hy => mergeStep1_hasRealData env aiFields mongoData method options y hy) hx

/-- C5 counterexample: the schema lists a field `color` that no sample
document carries and the field-sample fetch returns nothing; the merge
emits it with source "mongodb" and `hasRealData = false`, refuting the
claim that mongodb-sourced fields always have `hasRealData = true`. -/
theorem claim_C5_counterexample :
    (HybridGenerator.mergeFieldPredictions Fixtures.envC5 [] (some Fixtures.mdC5) "GET"
        Fixtures.optsDefault).map
      (fun f => (f.name, f.source, f.hasRealData))
      = [("color", HybridGenerator.Source.mongodb, false)] := rfl

/-- C5 witness: the amended invariant applied to that concrete field. -/
theorem claim_C5_amended_witness :
    Fixtures.fieldC5.hasRealData = !Fixtures.fieldC5.realValues.isEmpty :=
  claim_C5_mongodb_hasRealData_amended Fixtures.envC5 [] (some Fixtures.mdC5) "GET"
    Fixtures.optsDefault Fixtures.fieldC5 (List.Mem.head _) rfl

/-! ## Claim C7 -/

theorem bestOf_eq_head (b : CollectionInferencer.CollectionInference)
    (l : List CollectionInferencer.CollectionInference)
    (h : ∀ c ∈ l, ¬(b.confidence < c.confidence)) :
    CollectionInferencer.bestOf b l = b := by
  induction l with
  | nil => rfl
  | cons c cs ih =>
      unfold CollectionInferencer.bestOf at *
      rw [List.foldl_cons, if_neg (h c (List.mem_cons_self c cs))]
      exact ih (fun d hd => h d (List.mem_cons_of_mem c hd))

theorem inferFromFileName_confidence (fp : String) :
    (CollectionInferencer.inferFromFileName fp).confidence = 0 ∨
    (CollectionInferencer.inferFromFileName fp).confidence = 0.4 := by
  simp only [CollectionInferencer.inferFromFileName]
  (repeat' split) <;> simp

theorem insertUniq_head (l : List String) (x : String) (h : l ≠ []) :
    (insertUniq l x).head? = l.head? ∧ insertUniq l x ≠ [] := by
  unfold insertUniq
  by_cases hx : x ∈ l
  · rw [if_pos hx]; exact ⟨rfl, h⟩
  · rw [if_neg hx]
    cases l with
    | nil => exact absurd rfl h
    | cons a t => exact ⟨rfl, by simp⟩

theorem foldl_insertUniq_head :
    ∀ (xs l : List String), l ≠ [] →
      (xs.foldl insertUniq l).head? = l.head? ∧ xs.foldl insertUniq l ≠ [] := by
  intro xs
  induction xs with
  | nil => intro l h; exact ⟨rfl, h⟩
  | cons x xt ih =>
      intro l h
      rw [List.foldl_cons]
      obtain ⟨h1, h2⟩ := insertUniq_head l x h
      obtain ⟨h3, h4⟩ := ih (insertUniq l x) h2
      exact ⟨h3.trans h1, h4⟩

theorem collectStep_head (best inf : CollectionInferencer.CollectionInference)
    (acc : List String) (h : acc ≠ []) :
    (CollectionInferencer.collectStep best acc inf).head? = acc.head? ∧
    CollectionInferencer.collectStep best acc inf ≠ [] := by
  unfold CollectionInferencer.collectStep
  by_cases hc : (!(inf.collectionName == best.collectionName)) = true
  · rw [if_pos hc]
    obtain ⟨h1, h2⟩ := insertUniq_head acc inf.collectionName h
    obtain ⟨h3, h4⟩ := foldl_insertUniq_head inf.alternativeNames _ h2
    exact ⟨h3.trans h1, h4⟩
  · rw [if_neg hc]
    exact foldl_insertUniq_head inf.alternativeNames acc h

theorem products_mem_collectAlternatives (fi : CollectionInferencer.CollectionInference) :
    "products" ∈ (CollectionInferencer.collectAlternatives Fixtures.infPathC7
        [Fixtures.infPathC7, Fixtures.infSpecialC7, Fixtures.infMethodC7, fi]).take 5 := by
  unfold CollectionInferencer.collectAlternatives
  rw [List.foldl_cons, List.foldl_cons, List.foldl_cons, List.foldl_cons, List.foldl_nil]
  have hacc : CollectionInferencer.collectStep Fixtures.infPathC7
      (CollectionInferencer.collectStep Fixtures.infPathC7
        (CollectionInferencer.collectStep Fixtures.infPathC7 [] Fixtures.infPathC7)
        Fixtures.infSpecialC7)
      Fixtures.infMethodC7 = ["products", "unknown"] := rfl
  rw [hacc]
  obtain ⟨hh, hne⟩ := collectStep_head Fixtures.infPathC7 fi ["products", "unknown"] (by simp)
  cases hl : CollectionInferencer.collectStep Fixtures.infPathC7 ["products", "unknown"] fi with
  | nil => exact absurd hl hne
  | cons a t =>
      rw [hl] at hh
      have ha : a = "products" := by simpa using hh
      subst ha
      simp [List.take]

/-- C7: for the route `GET /api/v1/products/:id` (any file path), the
primary inference is `"product"` with the documented additive confidence
`min (0.5 + 0.3 + 0.2 + 0.1) 1` (base, common REST noun, plural segment,
standard verb, capped at 1), and `"products"` appears among the
alternative names. -/
theorem claim_C7_products_route :
    ∀ filePath : String,
      (CollectionInferencer.inferCollectionName
          ⟨"GET", "/api/v1/products/:id", filePath⟩).collectionName = "product" ∧
      (CollectionInferencer.inferCollectionName
          ⟨"GET", "/api/v1/products/:id", filePath⟩).confidence
        = min ((0.5 : ℚ) + 0.3 + 0.2 + 0.1) 1 ∧
      "products" ∈ (CollectionInferencer.inferCollectionName
          ⟨"GET", "/api/v1/products/:id", filePath⟩).alternativeNames := by
  intro filePath
  have hseg : CollectionInferencer.parseRoutePath "/api/v1/products/:id" = ["products"] := by
    decide
  have hi1 : CollectionInferencer.inferFromPathSegments ["products"]
      ⟨"GET", "/api/v1/products/:id", filePath⟩ = Fixtures.infPathC7 := rfl
  have hi2 : CollectionInferencer.inferFromSpecialCases ["products"]
      ⟨"GET", "/api/v1/products/:id", filePath⟩ = Fixtures.infSpecialC7 := rfl
  have hi3 : CollectionInferencer.inferFromRouteMethod ["products"]
      ⟨"GET", "/api/v1/products/:id", filePath⟩ = Fixtures.infMethodC7 := rfl
  have hbest : CollectionInferencer.bestOf Fixtures.infPathC7
      [Fixtures.infSpecialC7, Fixtures.infMethodC7,
        CollectionInferencer.inferFromFileName filePath] = Fixtures.infPathC7 := by
    apply bestOf_eq_head
    intro c hc
    simp only [List.mem_cons, List.not_mem_nil, or_false] at hc
    rcases hc with rfl | rfl | rfl
    · simp only [Fixtures.infPathC7, Fixtures.infSpecialC7]
      norm_num
    · simp only [Fixtures.infPathC7, Fixtures.infMethodC7]
      rw [min_def]
      norm_num
    · rcases inferFromFileName_confidence filePath with hc4 | hc4 <;>
        · rw [hc4]
          simp only [Fixtures.infPathC7]
          rw [min_def]
          norm_num
  simp only [CollectionInferencer.inferCollectionName, hseg, hi1, hi2, hi3, hbest]
  exact ⟨rfl, rfl, products_mem_collectAlternatives _⟩

/-! ## Claim C1 -/

theorem combine_oneSlash (pre p : String) (hpre : oneSlash pre = true)
    (hp : oneSlash p = true) : oneSlash (RouteDetection.combinePaths pre p) = true := by
  obtain ⟨rest, hd, hrest⟩ : ∃ rest, pre.data = '/' :: rest ∧ rest.head? ≠ some '/' := by
    unfold oneSlash oneSlashL at hpre
    cases hdp : pre.data with
    | nil => rw [hdp] at hpre; cases hpre
    | cons c r =>
        rw [hdp] at hpre
        simp at hpre
        obtain ⟨hc, hr⟩ := hpre
        subst hc
        exact ⟨r, rfl, by simpa using hr⟩
  have hsw : strStartsWithSlash p = true := by
    unfold oneSlash oneSlashL at hp
    unfold strStartsWithSlash
    cases hdp : p.data with
    | nil => rw [hdp] at hp; cases hp
    | cons c r =>
        rw [hdp] at hp
        simp at hp
        simp [hp.1]
  unfold RouteDetection.combinePaths
  rw [if_pos hsw]
  by_cases he : strEndsWithSlash pre = true
  · rw [if_pos he]
    cases rest with
    | nil =>
        have hdata : (strDropLast pre ++ p).data = p.data := by
          rw [String.data_append]
          simp [strDropLast, hd]
        unfold oneSlash
        rw [hdata]
        exact hp
    | cons c2 rest2 =>
        have hc2 : c2 ≠ '/' := by
          intro hcc
          exact hrest (by simp [hcc])
        cases rest2 with
        | nil =>
            exfalso
            unfold strEndsWithSlash at he
            rw [hd] at he
            simp at he
            exact hc2 he
        | cons c3 rest3 =>
            have hdata : (strDropLast pre ++ p).data
                = '/' :: c2 :: ((c3 :: rest3).dropLast ++ p.data) := by
              rw [String.data_append]
              simp [strDropLast, hd]
            unfold oneSlash
            rw [hdata]
            simp [oneSlashL, hc2]
  · rw [if_neg he]
    cases rest with
    | nil =>
        exfalso
        apply he
        unfold strEndsWithSlash
        rw [hd]
        rfl
    | cons c2 rest2 =>
        have hc2 : c2 ≠ '/' := by
          intro hcc
          exact hrest (by simp [hcc])
        have hdata : (pre ++ p).data = '/' :: c2 :: (rest2 ++ p.data) := by
          rw [String.data_append, hd]
          rfl
        unfold oneSlash
        rw [hdata]
        simp [oneSlashL, hc2]

theorem listLookupMem {α β : Type} [BEq α] [LawfulBEq α] (k : α) (v : β) :
    ∀ l : List (α × β), l.lookup k = some v → (k, v) ∈ l := by
  intro l
  induction l with
  | nil => intro h; cases h
  | cons e t ih =>
      intro h
      rcases e with ⟨k', v'⟩
      by_cases hk : (k == k') = true
      · rw [List.lookup_cons] at h
        rw [hk] at h
        cases h
        have : k = k' := eq_of_beq hk
        subst this
        exact List.mem_cons_self _ _
      · rw [List.lookup_cons] at h
        rw [Bool.not_eq_true] at hk
        rw [hk] at h
        exact List.mem_cons_of_mem _ (ih h)

theorem method_upper (m : String) (h : RouteDetection.httpMethodsLow.contains m = true) :
    jsUpper m ∈ RouteDetection.httpMethodsUp := by
  have hm : m ∈ RouteDetection.httpMethodsLow := by simpa using h
  fin_cases hm <;> decide

theorem detectImports_frame (env : RouteDetection.RDEnv) (fp : String)
    (s : RouteDetection.DetectorState) (src : Option String)
    (specs : List (RouteDetection.ImportSpecKind × String)) :
    (RouteDetection.detectImports env fp s src specs).routes = s.routes ∧
    (RouteDetection.detectImports env fp s src specs).routerPrefixes = s.routerPrefixes := by
  unfold RouteDetection.detectImports
  split
  · exact ⟨rfl, rfl⟩
  · split
    · exact ⟨rfl, rfl⟩
    · refine foldl_inv
        (fun s' => s'.routes = s.routes ∧ s'.routerPrefixes = s.routerPrefixes) _
        specs s ⟨rfl, rfl⟩ ?_
      intro s' spec _ hs'
      rcases spec with ⟨kind, nm⟩
      cases kind <;> exact ⟨hs'.1, hs'.2⟩

theorem detectRequires_frame (env : RouteDetection.RDEnv) (fp : String)
    (s : RouteDetection.DetectorState) (idName : Option String) (ini : RouteDetection.RInit) :
    (RouteDetection.detectRequires env fp s idName ini).routes = s.routes ∧
    (RouteDetection.detectRequires env fp s idName ini).routerPrefixes = s.routerPrefixes := by
  unfold RouteDetection.detectRequires
  split
  · split
    · exact ⟨rfl, rfl⟩
    · exact ⟨rfl, rfl⟩
  · exact ⟨rfl, rfl⟩

theorem pass1_frame (env : RouteDetection.RDEnv) (fp : String)
    (s : RouteDetection.DetectorState) (n : RouteDetection.RNode) :
    (RouteDetection.pass1 env fp s n).routes = s.routes ∧
    (RouteDetection.pass1 env fp s n).routerPrefixes = s.routerPrefixes := by
  cases n with
  | importDecl src specs => exact detectImports_frame env fp s src specs
  | varDecl idName ini => exact detectRequires_frame env fp s idName ini
  | call callee args line => exact ⟨rfl, rfl⟩
  | otherNode => exact ⟨rfl, rfl⟩

theorem detectRouterPrefix_routes (s : RouteDetection.DetectorState)
    (n : RouteDetection.RNode) :
    (RouteDetection.detectRouterPrefix s n).routes = s.routes := by
  unfold RouteDetection.detectRouterPrefix
  split
  · rfl
  · rfl

theorem detectRouterPrefix_prefix_subset (s : RouteDetection.DetectorState)
    (n : RouteDetection.RNode) :
    ∀ q ∈ (RouteDetection.detectRouterPrefix s n).routerPrefixes,
      q ∈ s.routerPrefixes ∨ q.2 ∈ RouteDetection.nodeStrLits n := by
  unfold RouteDetection.detectRouterPrefix
  split
  · intro q hq
    rcases List.mem_cons.mp hq with rfl | hq'
    · right
      simp [RouteDetection.nodeStrLits]
    · exact Or.inl hq'
  · intro q hq
    exact Or.inl hq

theorem detectRoute_spec (fp : String) (s : RouteDetection.DetectorState)
    (n : RouteDetection.RNode) :
    (RouteDetection.detectRoute fp s n).routerPrefixes = s.routerPrefixes ∧
    ∀ r ∈ (RouteDetection.detectRoute fp s n).routes,
      r ∈ s.routes ∨
        (r.method ∈ RouteDetection.httpMethodsUp ∧
          (RouteDetection.prefixesOneSlash s →
            (∀ v ∈ RouteDetection.nodeStrLits n, oneSlash v = true) →
            oneSlash r.path = true)) := by
  simp only [RouteDetection.detectRoute]
  split
  case h_2 => exact ⟨rfl, fun r hr => Or.inl hr⟩
  case h_1 objName propName args line =>
    split
    case isFalse => exact ⟨rfl, fun r hr => Or.inl hr⟩
    case isTrue hcont =>
      split
      case h_2 => exact ⟨rfl, fun r hr => Or.inl hr⟩
      case h_1 routePath restArgs =>
        refine ⟨rfl, ?_⟩
        intro r hr
        rcases List.mem_append.mp hr with hr' | hr'
        · exact Or.inl hr'
        · rcases List.mem_singleton.mp hr' with rfl
          refine Or.inr ⟨method_upper _ hcont, ?_⟩
          intro hpre hlits
          have hpath : oneSlash routePath = true := by
            apply hlits
            simp [RouteDetection.nodeStrLits]
          cases objName with
          | none => exact hpath
          | some routerName =>
              cases hlk : s.routerPrefixes.lookup routerName with
              | none => simp only [hlk]; exact hpath
              | some pre =>
                  simp only [hlk]
                  exact combine_oneSlash pre routePath
                    (hpre (routerName, pre) (listLookupMem _ _ _ hlk)) hpath

theorem parseFile_method (env : RouteDetection.RDEnv) (s : RouteDetection.DetectorState)
    (f : RouteDetection.RFile) (hm : RouteDetection.routesMethodOk s) :
    RouteDetection.routesMethodOk (RouteDetection.parseFileForRoutes env s f) := by
  rcases f with ⟨fpath, fparsed⟩
  cases fparsed with
  | none => exact hm
  | some nodes =>
      show RouteDetection.routesMethodOk
        (nodes.foldl (RouteDetection.detectRoute fpath)
          (nodes.foldl RouteDetection.detectRouterPrefix
            (nodes.foldl (RouteDetection.pass1 env fpath)
              { s with controllerImports := [], functionImports := [] })))
      have h1 : RouteDetection.routesMethodOk
          (nodes.foldl (RouteDetection.pass1 env fpath)
            { s with controllerImports := [], functionImports := [] }) := by
        refine foldl_inv RouteDetection.routesMethodOk _ nodes _ hm ?_
        intro s' a _ hs' r hrr
        rw [(pass1_frame env fpath s' a).1] at hrr
        exact hs' r hrr
      have h2 : RouteDetection.routesMethodOk
          (nodes.foldl RouteDetection.detectRouterPrefix
            (nodes.foldl (RouteDetection.pass1 env fpath)
              { s with controllerImports := [], functionImports := [] })) := by
        refine foldl_inv RouteDetection.routesMethodOk _ nodes _ h1 ?_
        intro s' a _ hs' r hrr
        rw [detectRouterPrefix_routes s' a] at hrr
        exact hs' r hrr
      refine foldl_inv RouteDetection.routesMethodOk _ nodes _ h2 ?_
      intro s' a _ hs' r hrr
      rcases (detectRoute_spec fpath s' a).2 r hrr with h | h
      · exact hs' r h
      · exact h.1

theorem parseFile_slash (env : RouteDetection.RDEnv) (s : RouteDetection.DetectorState)
    (f : RouteDetection.RFile) (hf : RouteDetection.fileLitsOneSlash f)
    (h : RouteDetection.prefixesOneSlash s ∧ RouteDetection.routesSlashOk s) :
    RouteDetection.prefixesOneSlash (RouteDetection.parseFileForRoutes env s f) ∧
    RouteDetection.routesSlashOk (RouteDetection.parseFileForRoutes env s f) := by
  rcases f with ⟨fpath, fparsed⟩
  cases fparsed with
  | none => exact h
  | some nodes =>
      have hlits : ∀ n ∈ nodes, ∀ v ∈ RouteDetection.nodeStrLits n, oneSlash v = true :=
        hf nodes rfl
      show RouteDetection.prefixesOneSlash
          (nodes.foldl (RouteDetection.detectRoute fpath)
            (nodes.foldl RouteDetection.detectRouterPrefix
              (nodes.foldl (RouteDetection.pass1 env fpath)
                { s with controllerImports := [], functionImports := [] }))) ∧
        RouteDetection.routesSlashOk
          (nodes.foldl (RouteDetection.detectRoute fpath)
            (nodes.foldl RouteDetection.detectRouterPrefix
              (nodes.foldl (RouteDetection.pass1 env fpath)
                { s with controllerImports := [], functionImports := [] })))
      have h1 : RouteDetection.prefixesOneSlash
            (nodes.foldl (RouteDetection.pass1 env fpath)
              { s with controllerImports := [], functionImports := [] }) ∧
          RouteDetection.routesSlashOk
            (nodes.foldl (RouteDetection.pass1 env fpath)
              { s with controllerImports := [], functionImports := [] }) := by
        refine foldl_inv
          (fun s' => RouteDetection.prefixesOneSlash s' ∧ RouteDetection.routesSlashOk s') _
          nodes _ ⟨h.1, h.2⟩ ?_
        intro s' a _ hs'
        obtain ⟨hr, hq⟩ := pass1_frame env fpath s' a
        constructor
        · intro q hqq
          rw [hq] at hqq
          exact hs'.1 q hqq
        · intro r hrr
          rw [hr] at hrr
          exact hs'.2 r hrr
      have h2 : RouteDetection.prefixesOneSlash
            (nodes.foldl RouteDetection.detectRouterPrefix
              (nodes.foldl (RouteDetection.pass1 env fpath)
                { s with controllerImports := [], functionImports := [] })) ∧
          RouteDetection.routesSlashOk
            (nodes.foldl RouteDetection.detectRouterPrefix
              (nodes.foldl (RouteDetection.pass1 env fpath)
                { s with controllerImports := [], functionImports := [] })) := by
        refine foldl_inv
          (fun s' => RouteDetection.prefixesOneSlash s' ∧ RouteDetection.routesSlashOk s') _
          nodes _ h1 ?_
        intro s' a ha hs'
        constructor
        · intro q hqq
          rcases detectRouterPrefix_prefix_subset s' a q hqq with hq' | hq'
          · exact hs'.1 q hq'
          · exact hlits a ha q.2 hq'
        · intro r hrr
          rw [detectRouterPrefix_routes s' a] at hrr
          exact hs'.2 r hrr
      refine foldl_inv
        (fun s' => RouteDetection.prefixesOneSlash s' ∧ RouteDetection.routesSlashOk s') _
        nodes _ h2 ?_
      intro s' a ha hs'
      obtain ⟨hq, hroutes⟩ := detectRoute_spec fpath s' a
      constructor
      · intro q hqq
        rw [hq] at hqq
        exact hs'.1 q hqq
      · intro r hrr
        rcases hroutes r hrr with h' | h'
        · exact hs'.2 r h'
        · exact h'.2 hs'.1 (hlits a ha)

/-- C1 (amended): every route emitted by `detectRoutes` or
`detectRoutesInFile` has a `method` that is one of the seven upper-case
HTTP verbs (unconditionally); its `path` begins with exactly one '/'
PROVIDED every string literal appearing as a call argument in the scanned
files begins with exactly one '/' — without that proviso the path is the
raw literal (e.g. `router.get('users', h)` yields path `"users"`). -/
theorem claim_C1_route_shape :
    (∀ (env : RouteDetection.RDEnv) (files : List RouteDetection.RFile)
        (r : RouteDetection.DetectedRoute),
      r ∈ RouteDetection.detectRoutes env files →
      r.method ∈ RouteDetection.httpMethodsUp ∧
        ((∀ f ∈ files, RouteDetection.fileLitsOneSlash f) → oneSlash r.path = true)) ∧
    (∀ (env : RouteDetection.RDEnv) (s : RouteDetection.DetectorState)
        (f : RouteDetection.RFile) (r : RouteDetection.DetectedRoute),
      r ∈ (RouteDetection.detectRoutesInFile env s f).1 →
      r.method ∈ RouteDetection.httpMethodsUp ∧
        (RouteDetection.fileLitsOneSlash f → oneSlash r.path = true)) := by
  constructor
  · intro env files r hr
    constructor
    · have hm : RouteDetection.routesMethodOk
          (files.foldl (RouteDetection.parseFileForRoutes env) RouteDetection.emptyState) := by
        refine foldl_inv RouteDetection.routesMethodOk _ files _ ?_ ?_
        · intro x hx
          cases hx
        · intro s' f _ hs'
          exact parseFile_method env s' f hs'
      exact hm r hr
    · intro hfiles
      have hs : RouteDetection.prefixesOneSlash
            (files.foldl (RouteDetection.parseFileForRoutes env) RouteDetection.emptyState) ∧
          RouteDetection.routesSlashOk
            (files.foldl (RouteDetection.parseFileForRoutes env) RouteDetection.emptyState) := by
        refine foldl_inv
          (fun s' => RouteDetection.prefixesOneSlash s' ∧ RouteDetection.routesSlashOk s') _
          files _ ⟨fun q hq => absurd hq (List.not_mem_nil q), fun x hx => absurd hx
            (List.not_mem_nil x)⟩ ?_
        intro s' f hfmem hs'
        exact parseFile_slash env s' f (hfiles f hfmem) hs'
      exact hs.2 r hr
  · intro env s f r hr
    constructor
    · exact parseFile_method env RouteDetection.emptyState f
        (fun x hx => absurd hx (List.not_mem_nil x)) r hr
    · intro hf
      exact (parseFile_slash env RouteDetection.emptyState f hf
        ⟨fun q hq => absurd hq (List.not_mem_nil q),
         fun x hx => absurd hx (List.not_mem_nil x)⟩).2 r hr

/-- C1 counterexample: the registration `router.get('users', h)` with no
prefix yields a route whose path is `"users"`, which does not begin with
a '/' — the claim's unconditional leading-slash invariant fails. -/
theorem claim_C1_counterexample :
    (RouteDetection.detectRoutes Fixtures.rdEnv0 [Fixtures.fileC1bad]).map
        (fun r => r.path) = ["users"] ∧
    oneSlash "users" = false := by
  exact ⟨by decide, by decide⟩

/-- C1 witness: the spec's own example — `app.use('/api', router)` and
`router.get('/users/:id', getUser)` — yields `GET /api/users/:id`, whose
method is a canonical verb and whose path has exactly one leading '/'. -/
theorem claim_C1_witness :
    Fixtures.routeC1.method ∈ RouteDetection.httpMethodsUp ∧
    oneSlash Fixtures.routeC1.path = true := by
  have h := claim_C1_route_shape.1 Fixtures.rdEnv0 [Fixtures.fileC1] Fixtures.routeC1
    (by decide)
  refine ⟨h.1, h.2 ?_⟩
  intro f hf
  rcases List.mem_singleton.mp hf with rfl
  intro nodes hn
  have hnodes : nodes = [.call (.member (some "app") (some "use"))
      [.strLit "/api", .ident "router"] 2,
    .call (.member (some "router") (some "get"))
      [.strLit "/users/:id", .ident "getUser"] 3] := by
    have : (Fixtures.fileC1).parsed = some nodes := hn
    simpa [Fixtures.fileC1] using this.symm
  subst hnodes
  decide

end Conduit
